import Mathlib

/-!
# The real-space one-halo term (`one_halo_rspace.c`)

A shallow embedding of `one_halo_real_space`, `calc_real_space_one_halo` and the
integrands `func1`, `func1satsat`, `func1cs`.

Modelling conventions.

* A C `double` is an element of a linearly ordered field `α`.  The statements about
  control flow hold for every such field; the statements that need `exp`, `log` and
  `pow` are over `ℝ` with the real functions.  Rounding, infinities and NaN are
  outside the model.
* A C `int` flag or counter is an unbounded integer; the only arithmetic on one is
  `ncnt++`, once per build.
* `header.h` is not part of the source tree.  The globals this file only reads are
  collected in `Config`; the functions it only calls (`exp`, `log`, `pow` from the
  C library, `qromo`, `spline`, `splint`, `dvector` from the numerical library and
  the halo-model functions) are the fields of `Env`.
* The cubic-spline routines are also given as definitions (`nr_spline`, `nr_splint`),
  modelled from the natural cubic spline the specification asks for; they are used
  only in the run that shows a negative interpolated value.
* The globals and statics this file writes are the fields of `Globals` and `State`.
  `ncnt` is the static call counter of `calc_real_space_one_halo`.  `Calls` is ghost
  instrumentation: one counter per library routine, incremented where the C code
  calls it.
* A `double *` obtained from `dvector(1,n)` is a map from indices to values.
* A routine of `Env` is a function of its arguments: it reads no global of this file
  and writes none.
* The diagnostic `printf`/`fprintf` output (guarded by `OUTPUT`) is not modelled.
  The statements after the unconditional `continue` of the tabulation loop are
  never executed and do not appear in the loop model.
-/

namespace OneHalo

/-- Globals of `header.h` that `one_halo_rspace.c` reads and never writes. -/
structure Config (α : Type) where
  /-- The switch `HOD.pdfs`. -/
  pdfs : Int
  /-- The bound `HOD.M_low`. -/
  M_low : α
  /-- The bound `HOD.M_max`. -/
  M_max : α
  /-- The constant `PI`. -/
  PI : α
  DELTA_HALO : α
  RHO_CRIT : α
  OMEGA_M : α
  GALAXY_DENSITY : α
  CVIR_FAC : α
  OUTPUT : Int

/-- Functions that `one_halo_rspace.c` calls and does not define. -/
structure Env (α : Type) where
  exp : α → α
  log : α → α
  pow : α → α → α
  /-- The call `qromo(f,a,b,midpnt)`; the fixed last argument is left out. -/
  qromo : (α → α) → α → α → α
  /-- The contents of the block returned by `dvector(nl,nh)`. -/
  dvector : Nat → Nat → (Nat → α)
  /-- The array `y2` that `spline(x,y,n,yp1,ypn,y2)` fills. -/
  spline : (Nat → α) → (Nat → α) → Nat → α → α → (Nat → α)
  /-- The value that `splint(x,y,y2,n,r,&a)` stores in `a`. -/
  splint : (Nat → α) → (Nat → α) → (Nat → α) → Nat → α → α
  halo_concentration : α → α
  dndM_interp : α → α
  N_sat : α → α
  N_cen : α → α
  moment_ss : α → α
  dFdx_ss : α → α → α
  dFdx_cs : α → α → α

/-- Ghost counters of the library calls made so far. -/
structure Calls where
  dvector : Nat
  qromo : Nat
  spline : Nat
  splint : Nat

/-- Globals written by this file, with the static `ncnt` and the ghost counters. -/
structure Globals (α : Type) where
  RESET_FLAG_1H : Int
  ERROR_FLAG : Int
  GALAXY_DENSITY2 : α
  r_g2 : α
  ncnt : Int
  calls : Calls

/-- The two arrays handed to `calc_real_space_one_halo`, with the globals. -/
structure Table (α : Type) where
  r : Nat → α
  xi : Nat → α
  g : Globals α

/-- The statics of `one_halo_real_space`, with the globals. -/
structure State (α : Type) where
  flag : Int
  x : Nat → α
  y : Nat → α
  y2 : Nat → α
  g : Globals α

section Program

variable {α : Type} [LinearOrderedField α]

/-- The integrand `func1`: pair density in haloes of log-mass `m` at separation `r_g2`. -/
def func1 (cfg : Config α) (E : Env α) (r_g2 : α) (m : α) : α :=
  let m := E.exp m
  let cvir := E.halo_concentration m * cfg.CVIR_FAC
  let n := E.dndM_interp m
  let nsat := E.N_sat m
  let ncen := E.N_cen m
  let rvir := 2 * E.pow (3.0 * m / (4 * cfg.DELTA_HALO * cfg.PI * cfg.OMEGA_M * cfg.RHO_CRIT))
    (1.0 / 3.0)
  let f_ss := E.dFdx_ss (r_g2 / rvir) cvir * E.moment_ss m * 0.5
  let f_cs := E.dFdx_cs (r_g2 / rvir) cvir * nsat * ncen
  n * (f_ss + f_cs) / rvir * m

/-- The integrand `func1satsat`: the satellite-satellite part only. -/
def func1satsat (cfg : Config α) (E : Env α) (r_g2 : α) (m : α) : α :=
  let m := E.exp m
  let cvir := E.halo_concentration m * cfg.CVIR_FAC
  let n := E.dndM_interp m
  let rvir := 2 * E.pow (3.0 * m / (4 * cfg.DELTA_HALO * cfg.PI * cfg.OMEGA_M * cfg.RHO_CRIT))
    (1.0 / 3.0)
  let f_ss := E.dFdx_ss (r_g2 / rvir) cvir * E.moment_ss m * 0.5
  n * f_ss / rvir * m

/-- The integrand `func1cs`: the central-satellite part only. -/
def func1cs (cfg : Config α) (E : Env α) (r_g2 : α) (m : α) : α :=
  let m := E.exp m
  let cvir := E.halo_concentration m * cfg.CVIR_FAC
  let n := E.dndM_interp m
  let nsat := E.N_sat m
  let ncen := E.N_cen m
  let rvir := 2 * E.pow (3.0 * m / (4 * cfg.DELTA_HALO * cfg.PI * cfg.OMEGA_M * cfg.RHO_CRIT))
    (1.0 / 3.0)
  let f_cs := E.dFdx_cs (r_g2 / rvir) cvir * nsat * ncen
  n * f_cs / rvir * m

/-- The local `rlo = log(0.01)`. -/
def rlo (E : Env α) : α := E.log 0.01

/-- The local `rhi = log(1.9*pow(3*HOD.M_max/(4*PI*DELTA_HALO*RHO_CRIT*OMEGA_M),1.0/3.0))`. -/
def rhi (cfg : Config α) (E : Env α) : α :=
  E.log (1.9 * E.pow
    (3 * cfg.M_max / (4 * cfg.PI * cfg.DELTA_HALO * cfg.RHO_CRIT * cfg.OMEGA_M)) (1.0 / 3.0))

/-- The local `dr = (rhi-rlo)/(n-1)`; `n-1` is an `int` subtraction. -/
def dr (cfg : Config α) (E : Env α) (n : Nat) : α :=
  (rhi cfg E - rlo E) / ((((n : Int) - 1 : Int)) : α)

/-- The expression `exp((i-1)*dr + rlo)`; `i-1` is an `int` subtraction. -/
def gridPoint (E : Env α) (d lo : α) (i : Nat) : α :=
  E.exp (((((i : Int) - 1 : Int)) : α) * d + lo)

/-- The first loop, `for(i=1;i<=n;++i) { r[i] = exp((i-1)*dr + rlo); xi[i] = 0; }`,
from index `i` with `k` iterations left. -/
def initLoop (E : Env α) (d lo : α) : Nat → Nat → Table α → Table α
  | _, 0, T => T
  | i, k + 1, T =>
    initLoop E d lo (i + 1) k
      { T with r := Function.update T.r i (gridPoint E d lo i),
               xi := Function.update T.xi i 0 }

/-- One pass through the body of the second loop up to the test `s1<1.0E-10`:
returns `s1` and the updated arrays and globals. -/
def pointStep (cfg : Config α) (E : Env α) (d lo : α) (i : Nat) (T : Table α) : α × Table α :=
  let ri := gridPoint E d lo i
  let r := Function.update T.r i ri
  let r_g2 := ri
  let fac := 1.0 / (2 * cfg.PI * r_g2 * r_g2 * cfg.GALAXY_DENSITY * T.g.GALAXY_DENSITY2)
  let mlo := 4.0 / 3.0 * cfg.PI * cfg.RHO_CRIT * cfg.DELTA_HALO * cfg.OMEGA_M *
    E.pow (r i * 0.5) 3.0
  let mlo := if mlo < cfg.M_low then cfg.M_low else mlo
  let s1 := fac * E.qromo (func1 cfg E r_g2) (E.log mlo) (E.log cfg.M_max)
  let calls := { T.g.calls with qromo := T.g.calls.qromo + 1 }
  let xi := Function.update T.xi i s1
  let ERROR_FLAG := if s1 = 0 then 0 else T.g.ERROR_FLAG
  (s1, { r := r, xi := xi,
         g := { T.g with r_g2 := r_g2, ERROR_FLAG := ERROR_FLAG, calls := calls } })

/-- The second loop, `for(i=1;i<=n;++i) { ...; if(s1<1.0E-10)break; continue; ... }`,
from index `i` with `k` iterations left. -/
def mainLoop (cfg : Config α) (E : Env α) (d lo : α) : Nat → Nat → Table α → Table α
  | _, 0, T => T
  | i, k + 1, T =>
    let p := pointStep cfg E d lo i T
    if p.1 < 1.0E-10 then p.2 else mainLoop cfg E d lo (i + 1) k p.2

/-- The routine `calc_real_space_one_halo(r,xi,n)`. -/
def calc_real_space_one_halo (cfg : Config α) (E : Env α) (r xi : Nat → α) (n : Nat)
    (g : Globals α) : Table α :=
  let g := { g with ncnt := g.ncnt + 1 }
  let lo := rlo E
  let d := dr cfg E n
  let g := { g with GALAXY_DENSITY2 := cfg.GALAXY_DENSITY }
  let T := initLoop E d lo 1 n { r := r, xi := xi, g := g }
  mainLoop cfg E d lo 1 n T

/-- The block of `one_halo_real_space` guarded by `if(!flag || RESET_FLAG_1H)`. -/
def rebuild (cfg : Config α) (E : Env α) (n : Nat) (s : State α) : State α :=
  let s :=
    if s.flag = 0 then
      { s with x := E.dvector 1 n, y := E.dvector 1 n, y2 := E.dvector 1 n,
               g := { s.g with calls := { s.g.calls with dvector := s.g.calls.dvector + 3 } } }
    else s
  let g := { s.g with RESET_FLAG_1H := 0 }
  let T := calc_real_space_one_halo cfg E s.x s.y n g
  let y2 := E.spline T.r T.xi n 2.0E+30 2.0E+30
  { flag := 1, x := T.r, y := T.xi, y2 := y2,
    g := { T.g with calls := { T.g.calls with spline := T.g.calls.spline + 1 } } }

/-- The state after the build step of `one_halo_real_space`, with `n = 100`. -/
def afterBuildStep (cfg : Config α) (E : Env α) (s : State α) : State α :=
  if s.flag = 0 ∨ s.g.RESET_FLAG_1H ≠ 0 then rebuild cfg E 100 s else s

/-- The function `one_halo_real_space(r)`: the returned value and the new state. -/
def one_halo_real_space (cfg : Config α) (E : Env α) (r : α) (s : State α) : α × State α :=
  let n := 100
  if cfg.pdfs = 0 then (0, s)
  else
    let s := afterBuildStep cfg E s
    if r > s.x n then (0, s)
    else if r < s.x 1 then (0, s)
    else
      (E.splint s.x s.y s.y2 n r,
       { s with g := { s.g with calls := { s.g.calls with splint := s.g.calls.splint + 1 } } })

/-! ## Definitions used to state the properties -/

/-- The argument of `log` in `rhi`: the largest tabulated separation aimed at,
`1.9*pow(3*HOD.M_max/(4*PI*DELTA_HALO*RHO_CRIT*OMEGA_M),1.0/3.0)`. -/
def rmax (cfg : Config α) (E : Env α) : α :=
  1.9 * E.pow
    (3 * cfg.M_max / (4 * cfg.PI * cfg.DELTA_HALO * cfg.RHO_CRIT * cfg.OMEGA_M)) (1.0 / 3.0)

/-- The local `rvir` of `func1` as a function of the halo mass:
`2*pow(3.0*m/(4*DELTA_HALO*PI*OMEGA_M*RHO_CRIT),1.0/3.0)`. -/
def func1_rvir (cfg : Config α) (E : Env α) (m : α) : α :=
  2 * E.pow (3.0 * m / (4 * cfg.DELTA_HALO * cfg.PI * cfg.OMEGA_M * cfg.RHO_CRIT)) (1.0 / 3.0)

/-- The local `mlo` at grid index `i`, after the test `if(mlo<HOD.M_low)`. -/
def mloAt (cfg : Config α) (E : Env α) (d lo : α) (i : Nat) : α :=
  let mlo := 4.0 / 3.0 * cfg.PI * cfg.RHO_CRIT * cfg.DELTA_HALO * cfg.OMEGA_M *
    E.pow (gridPoint E d lo i * 0.5) 3.0
  if mlo < cfg.M_low then cfg.M_low else mlo

/-- The value `s1` computed for grid index `i`, as a function of the index alone. -/
def sampleValue (cfg : Config α) (E : Env α) (d lo gd2 : α) (i : Nat) : α :=
  1.0 / (2 * cfg.PI * gridPoint E d lo i * gridPoint E d lo i * cfg.GALAXY_DENSITY * gd2) *
    E.qromo (func1 cfg E (gridPoint E d lo i)) (E.log (mloAt cfg E d lo i)) (E.log cfg.M_max)

/-- The part of the globals that the tabulation loop never touches. -/
def Frame (g h : Globals α) : Prop :=
  h.RESET_FLAG_1H = g.RESET_FLAG_1H ∧ h.GALAXY_DENSITY2 = g.GALAXY_DENSITY2 ∧
  h.ncnt = g.ncnt ∧ h.calls.dvector = g.calls.dvector ∧
  h.calls.spline = g.calls.spline ∧ h.calls.splint = g.calls.splint

/-! ## The cubic-spline routines -/

/-- Modelled from the spec: the cubic-spline fit (`spline`, not under `src/`), first
pass.  The spec asks for a natural cubic spline over the table, selected by boundary
values above `0.99e30`.  This is the forward sweep of the tridiagonal algorithm:
at index `i` it gives the pair `(y2[i], u[i])` held after the sweep has passed `i`. -/
def splineSweep (x y : Nat → α) (yp1 : α) : Nat → α × α
  | 0 => (0, 0)
  | i + 1 =>
    if i = 0 then
      if yp1 > 0.99e30 then (0, 0)
      else (-0.5, (3.0 / (x 2 - x 1)) * ((y 2 - y 1) / (x 2 - x 1) - yp1))
    else
      let prev := splineSweep x y yp1 i
      let sig := (x (i + 1) - x i) / (x (i + 2) - x i)
      let p := sig * prev.1 + 2.0
      let du := (y (i + 2) - y (i + 1)) / (x (i + 2) - x (i + 1))
        - (y (i + 1) - y i) / (x (i + 1) - x i)
      ((sig - 1.0) / p, (6.0 * du / (x (i + 2) - x i) - sig * prev.2) / p)

/-- Modelled from the spec: the cubic-spline fit, second pass.  Back-substitution:
`splineBack x y n yp1 ypn j` is the second derivative `y2[n-j]`. -/
def splineBack (x y : Nat → α) (n : Nat) (yp1 ypn : α) : Nat → α
  | 0 =>
    let qn := if ypn > 0.99e30 then 0 else 0.5
    let un := if ypn > 0.99e30 then 0
      else (3.0 / (x n - x (n - 1))) * (ypn - (y n - y (n - 1)) / (x n - x (n - 1)))
    (un - qn * (splineSweep x y yp1 (n - 1)).2) / (qn * (splineSweep x y yp1 (n - 1)).1 + 1.0)
  | j + 1 =>
    (splineSweep x y yp1 (n - (j + 1))).1 * splineBack x y n yp1 ypn j
      + (splineSweep x y yp1 (n - (j + 1))).2

/-- Modelled from the spec: the cubic-spline fit `spline(x,y,n,yp1,ypn,y2)`; the result
is the array `y2[1..n]` of second derivatives of the interpolating cubic spline. -/
def nr_spline (x y : Nat → α) (n : Nat) (yp1 ypn : α) : Nat → α :=
  fun k => if 1 ≤ k ∧ k ≤ n then splineBack x y n yp1 ypn (n - k) else 0

/-- Modelled from the spec: the bisection of the cubic-spline evaluator, which brackets
`x` between two neighbouring table indices; at most `fuel` halvings. -/
def bisect (xa : Nat → α) (x : α) : Nat → Nat → Nat → Nat × Nat
  | 0, klo, khi => (klo, khi)
  | fuel + 1, klo, khi =>
    if khi - klo > 1 then
      if xa ((khi + klo) / 2) > x then bisect xa x fuel klo ((khi + klo) / 2)
      else bisect xa x fuel ((khi + klo) / 2) khi
    else (klo, khi)

/-- Modelled from the spec: the cubic-spline evaluator `splint(xa,ya,y2a,n,x,&y)`
(not under `src/`): the value at `x` of the cubic through the two bracketing table
points with the fitted second derivatives. -/
def nr_splint (xa ya y2a : Nat → α) (n : Nat) (x : α) : α :=
  let kk := bisect xa x n 1 n
  let h := xa kk.2 - xa kk.1
  let a := (xa kk.2 - x) / h
  let b := (x - xa kk.1) / h
  a * ya kk.1 + b * ya kk.2
    + ((a * a * a - a) * y2a kk.1 + (b * b * b - b) * y2a kk.2) * (h * h) / 6.0

/-- A library for concrete runs with the cubic-spline routines above: the C library
functions and the concentration are arguments, the quadrature is the one-panel
midpoint rule `(b - a) * f((a+b)/2)`, the two pair profiles at `(t, c)` are `1` where
`t * c ≤ cut` and `0` beyond, and every other halo-model function is the constant
one. -/
def splineEnv (exp log : α → α) (pow : α → α → α) (conc : α → α) (cut : α) : Env α where
  exp := exp
  log := log
  pow := pow
  qromo := fun f a b => (b - a) * f ((a + b) / 2)
  dvector := fun _ _ _ => 0
  spline := nr_spline
  splint := nr_splint
  halo_concentration := conc
  dndM_interp := fun _ => 1
  N_sat := fun _ => 1
  N_cen := fun _ => 1
  moment_ss := fun _ => 1
  dFdx_ss := fun t c => if t * c ≤ cut then 1 else 0
  dFdx_cs := fun t c => if t * c ≤ cut then 1 else 0

/-- The library `splineEnv` with the concentration of a halo equal to its scale `rvir`
of `func1` and the cut-off `0.01005`: with `CVIR_FAC = 1` the pair profiles are `1` for
separations up to `0.01005` and `0` for larger ones. -/
def spikeEnv (exp log : α → α) (pow : α → α → α) (cfg : Config α) : Env α :=
  splineEnv exp log pow
    (fun m => func1_rvir cfg (splineEnv exp log pow (fun _ => 1) 0) m) 0.01005

/-- A grid that increases with non-decreasing steps on the indices `1..n`. -/
def ConvexGrid (x : Nat → α) (n : Nat) : Prop :=
  ∀ i, 1 ≤ i → i + 2 ≤ n →
    0 < x (i + 1) - x i ∧ x (i + 1) - x i ≤ x (i + 2) - x (i + 1)

/-- A table whose first sample is positive and whose other samples are zero. -/
def SpikeTable (y : Nat → α) (n : Nat) : Prop :=
  0 < y 1 ∧ ∀ j, 2 ≤ j → j ≤ n → y j = 0

/-- A library for concrete runs: the C library functions and the value delivered by
the spline evaluator are arguments, the quadrature is a one-point rule, and every
halo-model function is the constant one. -/
def testEnv (exp log : α → α) (pow : α → α → α) (splintValue : α) : Env α where
  exp := exp
  log := log
  pow := pow
  qromo := fun f a b => |b - a| * f a
  dvector := fun _ _ _ => 0
  spline := fun _ _ _ _ _ _ => 0
  splint := fun _ _ _ _ _ => splintValue
  halo_concentration := fun _ => 1
  dndM_interp := fun _ => 1
  N_sat := fun _ => 1
  N_cen := fun _ => 1
  moment_ss := fun _ => 1
  dFdx_ss := fun _ _ => 1
  dFdx_cs := fun _ _ => 1

/-- A configuration for concrete runs: the switch, the two mass bounds and the value
of `PI` are arguments; the rest are round values of the usual magnitudes. -/
def testConfig (pdfs : Int) (M_low M_max PI : α) : Config α where
  pdfs := pdfs
  M_low := M_low
  M_max := M_max
  PI := PI
  DELTA_HALO := 200
  RHO_CRIT := 2.775E+11
  OMEGA_M := 0.3
  GALAXY_DENSITY := 0.001
  CVIR_FAC := 1
  OUTPUT := 0

/-- The globals at program start, with a chosen value of `ERROR_FLAG`. -/
def startGlobals (errorFlag : Int) : Globals α where
  RESET_FLAG_1H := 0
  ERROR_FLAG := errorFlag
  GALAXY_DENSITY2 := 0
  r_g2 := 0
  ncnt := 0
  calls := { dvector := 0, qromo := 0, spline := 0, splint := 0 }

/-- The state at program start: `flag = 0` and no array allocated. -/
def startState (errorFlag : Int) : State α where
  flag := 0
  x := fun _ => 0
  y := fun _ => 0
  y2 := fun _ => 0
  g := startGlobals errorFlag

end Program

/-! ## The two loops of `calc_real_space_one_halo` -/

section Loops

variable {α : Type} [LinearOrderedField α]

theorem rhi_eq_log_rmax (cfg : Config α) (E : Env α) :
    rhi cfg E = E.log (rmax cfg E) := rfl

theorem func1_uses_rvir (cfg : Config α) (E : Env α)
    (r_g2 m : α) :
    func1 cfg E r_g2 m =
      E.dndM_interp (E.exp m) *
        (E.dFdx_ss (r_g2 / func1_rvir cfg E (E.exp m))
            (E.halo_concentration (E.exp m) * cfg.CVIR_FAC) * E.moment_ss (E.exp m) * 0.5 +
          E.dFdx_cs (r_g2 / func1_rvir cfg E (E.exp m))
            (E.halo_concentration (E.exp m) * cfg.CVIR_FAC) * E.N_sat (E.exp m) *
              E.N_cen (E.exp m)) /
        func1_rvir cfg E (E.exp m) * E.exp m := rfl

theorem initLoop_g (E : Env α) (d lo : α) (i k : Nat) (T : Table α) :
    (initLoop E d lo i k T).g = T.g := by
  induction k generalizing i T with
  | zero => rfl
  | succ k ih => rw [initLoop, ih]

theorem initLoop_r (E : Env α) (d lo : α) (i k : Nat) (T : Table α) (j : Nat) :
    (initLoop E d lo i k T).r j
      = if i ≤ j ∧ j < i + k then gridPoint E d lo j else T.r j := by
  induction k generalizing i T with
  | zero =>
    rw [initLoop, if_neg (by omega)]
  | succ k ih =>
    rw [initLoop, ih]
    by_cases h1 : i + 1 ≤ j ∧ j < i + 1 + k
    · rw [if_pos h1, if_pos (by omega)]
    · rw [if_neg h1]
      by_cases h2 : j = i
      · subst h2
        rw [if_pos (by omega)]
        simp
      · rw [if_neg (by omega)]
        simp [Function.update_noteq h2]

theorem initLoop_xi (E : Env α) (d lo : α) (i k : Nat) (T : Table α) (j : Nat) :
    (initLoop E d lo i k T).xi j = if i ≤ j ∧ j < i + k then 0 else T.xi j := by
  induction k generalizing i T with
  | zero =>
    rw [initLoop, if_neg (by omega)]
  | succ k ih =>
    rw [initLoop, ih]
    by_cases h1 : i + 1 ≤ j ∧ j < i + 1 + k
    · rw [if_pos h1, if_pos (by omega)]
    · rw [if_neg h1]
      by_cases h2 : j = i
      · subst h2
        rw [if_pos (by omega)]
        simp
      · rw [if_neg (by omega)]
        simp [Function.update_noteq h2]

theorem pointStep_fst (cfg : Config α) (E : Env α) (d lo : α) (i : Nat) (T : Table α) :
    (pointStep cfg E d lo i T).1 = sampleValue cfg E d lo T.g.GALAXY_DENSITY2 i := by
  simp only [pointStep, sampleValue, mloAt, Function.update_same]

theorem pointStep_xi (cfg : Config α) (E : Env α) (d lo : α) (i : Nat) (T : Table α) :
    (pointStep cfg E d lo i T).2.xi
      = Function.update T.xi i (sampleValue cfg E d lo T.g.GALAXY_DENSITY2 i) := by
  rw [← pointStep_fst]
  rfl

theorem pointStep_r (cfg : Config α) (E : Env α) (d lo : α) (i : Nat) (T : Table α) :
    (pointStep cfg E d lo i T).2.r = Function.update T.r i (gridPoint E d lo i) := rfl

theorem pointStep_frame (cfg : Config α) (E : Env α) (d lo : α) (i : Nat) (T : Table α) :
    Frame T.g (pointStep cfg E d lo i T).2.g :=
  ⟨rfl, rfl, rfl, rfl, rfl, rfl⟩

theorem mainLoop_frame (cfg : Config α) (E : Env α) (d lo : α) (i k : Nat) (T : Table α) :
    Frame T.g (mainLoop cfg E d lo i k T).g := by
  induction k generalizing i T with
  | zero => exact ⟨rfl, rfl, rfl, rfl, rfl, rfl⟩
  | succ k ih =>
    rw [mainLoop]
    split_ifs
    · exact pointStep_frame cfg E d lo i T
    · exact ih (i + 1) (pointStep cfg E d lo i T).2

/-- The loop rewrites `r[i]` with the value the first loop already stored there. -/
theorem mainLoop_r (cfg : Config α) (E : Env α) (d lo : α) (i k : Nat) (T : Table α)
    (h : ∀ j, i ≤ j → j < i + k → T.r j = gridPoint E d lo j) :
    (mainLoop cfg E d lo i k T).r = T.r := by
  induction k generalizing i T with
  | zero => rfl
  | succ k ih =>
    have hstep : (pointStep cfg E d lo i T).2.r = T.r := by
      rw [pointStep_r, ← h i (le_refl i) (by omega)]
      exact Function.update_eq_self i T.r
    rw [mainLoop]
    split_ifs
    · exact hstep
    · rw [ih (i + 1) (pointStep cfg E d lo i T).2, hstep]
      intro j h1 h2
      rw [hstep]
      exact h j (by omega) (by omega)

/-- Entries below the current index are final. -/
theorem mainLoop_xi_below (cfg : Config α) (E : Env α) (d lo : α) (i k : Nat) (T : Table α)
    (j : Nat) (hj : j < i) : (mainLoop cfg E d lo i k T).xi j = T.xi j := by
  induction k generalizing i T with
  | zero => rfl
  | succ k ih =>
    have hstep : (pointStep cfg E d lo i T).2.xi j = T.xi j := by
      rw [pointStep_xi, Function.update_noteq (by omega)]
    rw [mainLoop]
    split_ifs
    · exact hstep
    · rw [ih (i + 1) (pointStep cfg E d lo i T).2 (by omega), hstep]

/-- Every entry in the loop range is either still the zero of the first loop or the
sample computed for its own index. -/
theorem mainLoop_xi_cases (cfg : Config α) (E : Env α) (d lo : α) (i k : Nat) (T : Table α)
    (h0 : ∀ j, i ≤ j → j < i + k → T.xi j = 0) (j : Nat) (h1 : i ≤ j) (h2 : j < i + k) :
    (mainLoop cfg E d lo i k T).xi j = 0 ∨
      (mainLoop cfg E d lo i k T).xi j = sampleValue cfg E d lo T.g.GALAXY_DENSITY2 j := by
  induction k generalizing i T with
  | zero => omega
  | succ k ih =>
    have hstep : ∀ a, a ≠ i → (pointStep cfg E d lo i T).2.xi a = T.xi a := by
      intro a ha
      rw [pointStep_xi, Function.update_noteq ha]
    have hi : (pointStep cfg E d lo i T).2.xi i
        = sampleValue cfg E d lo T.g.GALAXY_DENSITY2 i := by
      rw [pointStep_xi, Function.update_same]
    rw [mainLoop]
    split_ifs
    · by_cases hji : j = i
      · subst hji
        exact Or.inr hi
      · exact Or.inl (by rw [hstep j hji]; exact h0 j h1 h2)
    · by_cases hji : j = i
      · subst hji
        right
        rw [mainLoop_xi_below cfg E d lo (j + 1) k _ j (by omega), hi]
      · have hgd := (pointStep_frame cfg E d lo i T).2.1
        rw [← hgd]
        apply ih (i + 1) (pointStep cfg E d lo i T).2 _ (by omega) (by omega)
        intro a ha1 ha2
        rw [hstep a (by omega)]
        exact h0 a (by omega) (by omega)

/-- Early stop: once an entry of the loop range is below the threshold, every later
entry of the range is zero. -/
theorem mainLoop_early (cfg : Config α) (E : Env α) (d lo : α) (i k : Nat) (T : Table α)
    (h0 : ∀ j, i < j → j < i + k → T.xi j = 0) (a b : Nat) (ha : i ≤ a) (hab : a < b)
    (hb : b < i + k) (hlt : (mainLoop cfg E d lo i k T).xi a < 1.0E-10) :
    (mainLoop cfg E d lo i k T).xi b = 0 := by
  induction k generalizing i T with
  | zero => omega
  | succ k ih =>
    have hstep : ∀ c, c ≠ i → (pointStep cfg E d lo i T).2.xi c = T.xi c := by
      intro c hc
      rw [pointStep_xi, Function.update_noteq hc]
    have hi : (pointStep cfg E d lo i T).2.xi i = (pointStep cfg E d lo i T).1 := by
      rw [pointStep_xi, pointStep_fst, Function.update_same]
    rw [mainLoop] at hlt ⊢
    split_ifs at hlt ⊢ with hs
    · rw [hstep b (by omega)]
      exact h0 b (by omega) hb
    · by_cases hai : a = i
      · subst hai
        rw [mainLoop_xi_below cfg E d lo (a + 1) k _ a (by omega), hi] at hlt
        exact absurd hlt hs
      · apply ih (i + 1) (pointStep cfg E d lo i T).2 _ (by omega) (by omega) hlt
        intro c hc1 hc2
        rw [hstep c (by omega)]
        exact h0 c (by omega) (by omega)

end Loops

/-! ## The tabulator and the build step -/

section Build

variable {α : Type} [LinearOrderedField α]

theorem calc_frame (cfg : Config α) (E : Env α) (r xi : Nat → α) (n : Nat) (g : Globals α) :
    Frame { g with ncnt := g.ncnt + 1, GALAXY_DENSITY2 := cfg.GALAXY_DENSITY }
      (calc_real_space_one_halo cfg E r xi n g).g := by
  have h := mainLoop_frame cfg E (dr cfg E n) (rlo E) 1 n
    (initLoop E (dr cfg E n) (rlo E) 1 n
      { r := r, xi := xi,
        g := { g with ncnt := g.ncnt + 1, GALAXY_DENSITY2 := cfg.GALAXY_DENSITY } })
  rw [initLoop_g] at h
  exact h

theorem calc_r (cfg : Config α) (E : Env α) (r xi : Nat → α) (n : Nat) (g : Globals α)
    (j : Nat) :
    (calc_real_space_one_halo cfg E r xi n g).r j
      = if 1 ≤ j ∧ j < 1 + n then gridPoint E (dr cfg E n) (rlo E) j else r j := by
  unfold calc_real_space_one_halo
  simp only []
  rw [mainLoop_r, initLoop_r]
  intro a h1 h2
  rw [initLoop_r, if_pos ⟨h1, h2⟩]

theorem calc_xi_cases (cfg : Config α) (E : Env α) (r xi : Nat → α) (n : Nat) (g : Globals α)
    (j : Nat) (h1 : 1 ≤ j) (h2 : j ≤ n) :
    (calc_real_space_one_halo cfg E r xi n g).xi j = 0 ∨
      (calc_real_space_one_halo cfg E r xi n g).xi j
        = sampleValue cfg E (dr cfg E n) (rlo E) cfg.GALAXY_DENSITY j := by
  unfold calc_real_space_one_halo
  simp only []
  have h := mainLoop_xi_cases cfg E (dr cfg E n) (rlo E) 1 n
    (initLoop E (dr cfg E n) (rlo E) 1 n
      { r := r, xi := xi,
        g := { g with ncnt := g.ncnt + 1, GALAXY_DENSITY2 := cfg.GALAXY_DENSITY } })
    (fun a ha1 ha2 => by rw [initLoop_xi, if_pos ⟨ha1, ha2⟩]) j h1 (by omega)
  rw [initLoop_g] at h
  exact h

theorem calc_early (cfg : Config α) (E : Env α) (r xi : Nat → α) (n : Nat) (g : Globals α)
    (i j : Nat) (hi : 1 ≤ i) (hij : i < j) (hj : j ≤ n)
    (hlt : (calc_real_space_one_halo cfg E r xi n g).xi i < 1.0E-10) :
    (calc_real_space_one_halo cfg E r xi n g).xi j = 0 := by
  unfold calc_real_space_one_halo at hlt ⊢
  simp only [] at hlt ⊢
  exact mainLoop_early cfg E (dr cfg E n) (rlo E) 1 n _
    (fun a ha1 ha2 => by rw [initLoop_xi, if_pos ⟨by omega, ha2⟩]) i j hi hij (by omega) hlt

/-- The first entry of the table is always the sample computed for the first point. -/
theorem calc_xi_first (cfg : Config α) (E : Env α) (r xi : Nat → α) (n : Nat)
    (g : Globals α) (hn : 1 ≤ n) :
    (calc_real_space_one_halo cfg E r xi n g).xi 1
      = sampleValue cfg E (dr cfg E n) (rlo E) cfg.GALAXY_DENSITY 1 := by
  obtain ⟨k, rfl⟩ : ∃ k, n = k + 1 := ⟨n - 1, by omega⟩
  unfold calc_real_space_one_halo
  simp only []
  rw [mainLoop]
  split_ifs
  · rw [pointStep_xi, Function.update_same, initLoop_g]
  · rw [mainLoop_xi_below _ _ _ _ 2 k _ 1 (by omega), pointStep_xi, Function.update_same,
      initLoop_g]

theorem rebuild_flag (cfg : Config α) (E : Env α) (n : Nat) (s : State α) :
    (rebuild cfg E n s).flag = 1 := rfl

theorem rebuild_x (cfg : Config α) (E : Env α) (n : Nat) (s : State α) (j : Nat)
    (h1 : 1 ≤ j) (h2 : j ≤ n) :
    (rebuild cfg E n s).x j = gridPoint E (dr cfg E n) (rlo E) j := by
  unfold rebuild
  simp only []
  rw [calc_r, if_pos ⟨h1, by omega⟩]

theorem rebuild_y2 (cfg : Config α) (E : Env α) (n : Nat) (s : State α) :
    (rebuild cfg E n s).y2
      = E.spline (rebuild cfg E n s).x (rebuild cfg E n s).y n 2.0E+30 2.0E+30 := rfl

theorem rebuild_globals (cfg : Config α) (E : Env α) (n : Nat) (s : State α) :
    (rebuild cfg E n s).g.RESET_FLAG_1H = 0 ∧
    (rebuild cfg E n s).g.ncnt = s.g.ncnt + 1 ∧
    (rebuild cfg E n s).g.GALAXY_DENSITY2 = cfg.GALAXY_DENSITY ∧
    (rebuild cfg E n s).g.calls.spline = s.g.calls.spline + 1 ∧
    (rebuild cfg E n s).g.calls.splint = s.g.calls.splint ∧
    (rebuild cfg E n s).g.calls.dvector
      = s.g.calls.dvector + (if s.flag = 0 then 3 else 0) := by
  unfold rebuild
  simp only []
  split_ifs with hf
  · obtain ⟨a, b, c, d, e, f⟩ := calc_frame cfg E (E.dvector 1 n) (E.dvector 1 n) n
      { s.g with calls := { s.g.calls with dvector := s.g.calls.dvector + 3 },
                 RESET_FLAG_1H := 0 }
    exact ⟨a, c, b, by rw [e], f, d⟩
  · obtain ⟨a, b, c, d, e, f⟩ := calc_frame cfg E s.x s.y n { s.g with RESET_FLAG_1H := 0 }
    exact ⟨a, c, b, by rw [e], f, by rw [d]; rfl⟩

theorem afterBuildStep_of_built (cfg : Config α) (E : Env α) (s : State α)
    (hf : s.flag ≠ 0) (hr : s.g.RESET_FLAG_1H = 0) : afterBuildStep cfg E s = s := by
  unfold afterBuildStep
  rw [if_neg]
  rintro (h | h)
  · exact hf h
  · exact h hr

theorem afterBuildStep_of_stale (cfg : Config α) (E : Env α) (s : State α)
    (h : s.flag = 0 ∨ s.g.RESET_FLAG_1H ≠ 0) :
    afterBuildStep cfg E s = rebuild cfg E 100 s := by
  unfold afterBuildStep
  rw [if_pos h]

theorem afterBuildStep_built (cfg : Config α) (E : Env α) (s : State α) :
    (afterBuildStep cfg E s).flag ≠ 0 ∧ (afterBuildStep cfg E s).g.RESET_FLAG_1H = 0 := by
  by_cases h : s.flag = 0 ∨ s.g.RESET_FLAG_1H ≠ 0
  · rw [afterBuildStep_of_stale cfg E s h]
    exact ⟨by rw [rebuild_flag]; decide, (rebuild_globals cfg E 100 s).1⟩
  · have h1 : s.flag ≠ 0 := fun hf => h (Or.inl hf)
    have h2 : s.g.RESET_FLAG_1H = 0 := by
      by_contra hr
      exact h (Or.inr hr)
    rw [afterBuildStep_of_built cfg E s h1 h2]
    exact ⟨h1, h2⟩

theorem afterBuildStep_splint (cfg : Config α) (E : Env α) (s : State α) :
    (afterBuildStep cfg E s).g.calls.splint = s.g.calls.splint := by
  unfold afterBuildStep
  split_ifs
  · exact (rebuild_globals cfg E 100 s).2.2.2.2.1
  · rfl

/-- What a call of the enabled function does after its build step. -/
theorem one_halo_enabled (cfg : Config α) (E : Env α) (r : α) (s : State α)
    (hp : cfg.pdfs ≠ 0) :
    one_halo_real_space cfg E r s =
      if r > (afterBuildStep cfg E s).x 100 then (0, afterBuildStep cfg E s)
      else if r < (afterBuildStep cfg E s).x 1 then (0, afterBuildStep cfg E s)
      else
        (E.splint (afterBuildStep cfg E s).x (afterBuildStep cfg E s).y
            (afterBuildStep cfg E s).y2 100 r,
         { afterBuildStep cfg E s with
           g := { (afterBuildStep cfg E s).g with
                  calls := { (afterBuildStep cfg E s).g.calls with
                             splint := (afterBuildStep cfg E s).g.calls.splint + 1 } } }) := by
  unfold one_halo_real_space
  simp only []
  rw [if_neg hp]

/-- The arrays, the flag and the build counters are those of the state after the
build step, whichever branch returns. -/
theorem one_halo_state (cfg : Config α) (E : Env α) (r : α) (s : State α)
    (hp : cfg.pdfs ≠ 0) :
    (one_halo_real_space cfg E r s).2.flag = (afterBuildStep cfg E s).flag ∧
    (one_halo_real_space cfg E r s).2.x = (afterBuildStep cfg E s).x ∧
    (one_halo_real_space cfg E r s).2.y = (afterBuildStep cfg E s).y ∧
    (one_halo_real_space cfg E r s).2.y2 = (afterBuildStep cfg E s).y2 ∧
    (one_halo_real_space cfg E r s).2.g.RESET_FLAG_1H
      = (afterBuildStep cfg E s).g.RESET_FLAG_1H ∧
    (one_halo_real_space cfg E r s).2.g.ncnt = (afterBuildStep cfg E s).g.ncnt ∧
    (one_halo_real_space cfg E r s).2.g.calls.spline
      = (afterBuildStep cfg E s).g.calls.spline ∧
    (one_halo_real_space cfg E r s).2.g.calls.dvector
      = (afterBuildStep cfg E s).g.calls.dvector := by
  rw [one_halo_enabled cfg E r s hp]
  split_ifs <;> exact ⟨rfl, rfl, rfl, rfl, rfl, rfl, rfl, rfl⟩

/-- The value returned by the enabled function, read off the state after the build step. -/
theorem one_halo_value (cfg : Config α) (E : Env α) (r : α) (s : State α)
    (hp : cfg.pdfs ≠ 0) :
    (one_halo_real_space cfg E r s).1 =
      if r > (afterBuildStep cfg E s).x 100 then 0
      else if r < (afterBuildStep cfg E s).x 1 then 0
      else E.splint (afterBuildStep cfg E s).x (afterBuildStep cfg E s).y
        (afterBuildStep cfg E s).y2 100 r := by
  rw [one_halo_enabled cfg E r s hp]
  split_ifs <;> rfl

/-- A call of the enabled function leaves the cache built and not stale, so the next
call skips the build step. -/
theorem afterBuildStep_after_call (cfg : Config α) (E : Env α) (r : α) (s : State α)
    (hp : cfg.pdfs ≠ 0) :
    afterBuildStep cfg E (one_halo_real_space cfg E r s).2
      = (one_halo_real_space cfg E r s).2 := by
  obtain ⟨hf, _, _, _, hr, _⟩ := one_halo_state cfg E r s hp
  obtain ⟨h1, h2⟩ := afterBuildStep_built cfg E s
  exact afterBuildStep_of_built cfg E _ (by rw [hf]; exact h1) (by rw [hr]; exact h2)

/-- With a quadrature that always returns zero the loop stops after its first pass. -/
theorem calc_degenerate (cfg : Config α) (E : Env α) (r xi : Nat → α) (n : Nat)
    (g : Globals α) (hq : ∀ f a b, E.qromo f a b = 0) (hn : 1 ≤ n) :
    (∀ j, 1 ≤ j → j ≤ n → (calc_real_space_one_halo cfg E r xi n g).xi j = 0) ∧
    (calc_real_space_one_halo cfg E r xi n g).g.ERROR_FLAG = 0 ∧
    (calc_real_space_one_halo cfg E r xi n g).g.calls.qromo = g.calls.qromo + 1 := by
  have hs : ∀ d lo gd2 i, sampleValue cfg E d lo gd2 i = 0 := by
    intro d lo gd2 i
    simp only [sampleValue, hq, mul_zero]
  refine ⟨fun j h1 h2 => ?_, ?_⟩
  · rcases calc_xi_cases cfg E r xi n g j h1 h2 with h | h
    · exact h
    · rw [h, hs]
  · obtain ⟨k, rfl⟩ : ∃ k, n = k + 1 := ⟨n - 1, by omega⟩
    have hthr : (0 : α) < 1.0E-10 := by norm_num
    unfold calc_real_space_one_halo
    simp only []
    rw [mainLoop, if_pos (by rw [pointStep_fst, hs]; exact hthr)]
    have h1 : ∀ T : Table α, (pointStep cfg E (dr cfg E (k + 1)) (rlo E) 1 T).1 = 0 :=
      fun T => by rw [pointStep_fst, hs]
    constructor
    · have := h1 (initLoop E (dr cfg E (k + 1)) (rlo E) 1 (k + 1)
        { r := r, xi := xi,
          g := { g with ncnt := g.ncnt + 1, GALAXY_DENSITY2 := cfg.GALAXY_DENSITY } })
      simp only [pointStep] at this ⊢
      rw [if_pos this]
    · simp only [pointStep, initLoop_g]

theorem disabled_model_aux (cfg : Config α) (E : Env α) (r : α) (s : State α)
    (hp : cfg.pdfs = 0) : one_halo_real_space cfg E r s = (0, s) := by
  unfold one_halo_real_space
  simp only []
  rw [if_pos hp]

/-- The integrand is non-negative when every factor is. -/
theorem func1_nonneg (cfg : Config α) (E : Env α)
    (hPI : 0 < cfg.PI) (hD : 0 < cfg.DELTA_HALO) (hR : 0 < cfg.RHO_CRIT)
    (hO : 0 < cfg.OMEGA_M)
    (hexp : ∀ t, 0 < E.exp t) (hpow : ∀ a b, 0 ≤ a → 0 ≤ E.pow a b)
    (hdn : ∀ m, 0 ≤ E.dndM_interp m) (hsat : ∀ m, 0 ≤ E.N_sat m)
    (hcen : ∀ m, 0 ≤ E.N_cen m) (hmom : ∀ m, 0 ≤ E.moment_ss m)
    (hss : ∀ a c, 0 ≤ E.dFdx_ss a c) (hcs : ∀ a c, 0 ≤ E.dFdx_cs a c)
    (r_g2 m : α) : 0 ≤ func1 cfg E r_g2 m := by
  rw [func1_uses_rvir]
  have hm := (hexp m).le
  have hrv : 0 ≤ func1_rvir cfg E (E.exp m) := by
    unfold func1_rvir
    have harg : 0 ≤ 3.0 * E.exp m /
        (4 * cfg.DELTA_HALO * cfg.PI * cfg.OMEGA_M * cfg.RHO_CRIT) := by positivity
    have := hpow _ (1.0 / 3.0) harg
    positivity
  have hfss : 0 ≤ E.dFdx_ss (r_g2 / func1_rvir cfg E (E.exp m))
      (E.halo_concentration (E.exp m) * cfg.CVIR_FAC) * E.moment_ss (E.exp m) * 0.5 :=
    mul_nonneg (mul_nonneg (hss _ _) (hmom _)) (by norm_num)
  have hfcs : 0 ≤ E.dFdx_cs (r_g2 / func1_rvir cfg E (E.exp m))
      (E.halo_concentration (E.exp m) * cfg.CVIR_FAC) * E.N_sat (E.exp m) *
        E.N_cen (E.exp m) :=
    mul_nonneg (mul_nonneg (hcs _ _) (hsat _)) (hcen _)
  exact mul_nonneg (div_nonneg (mul_nonneg (hdn _) (add_nonneg hfss hfcs)) hrv) hm

theorem rebuild_y_first (cfg : Config α) (E : Env α) (n : Nat) (s : State α) (hn : 1 ≤ n) :
    (rebuild cfg E n s).y 1
      = sampleValue cfg E (dr cfg E n) (rlo E) cfg.GALAXY_DENSITY 1 := by
  unfold rebuild
  simp only []
  exact calc_xi_first cfg E _ _ n _ hn

theorem rebuild_y_cases (cfg : Config α) (E : Env α) (n : Nat) (s : State α) (j : Nat)
    (h1 : 1 ≤ j) (h2 : j ≤ n) :
    (rebuild cfg E n s).y j = 0 ∨
      (rebuild cfg E n s).y j
        = sampleValue cfg E (dr cfg E n) (rlo E) cfg.GALAXY_DENSITY j := by
  unfold rebuild
  simp only []
  exact calc_xi_cases cfg E _ _ n _ j h1 h2

end Build

/-! ## The natural cubic spline through a spike -/

section Spline

variable {α : Type} [LinearOrderedField α]

theorem sentinel_gt : (2.0E+30 : α) > 0.99e30 := by norm_num

theorem splineSweep_one (x y : Nat → α) (yp1 : α) (h : yp1 > 0.99e30) :
    splineSweep x y yp1 1 = (0, 0) := by
  rw [splineSweep, if_pos rfl, if_pos h]

theorem splineSweep_succ (x y : Nat → α) (yp1 : α) (i : Nat) (hi : 1 ≤ i) :
    splineSweep x y yp1 (i + 1) =
      (((x (i + 1) - x i) / (x (i + 2) - x i) - 1.0) /
          ((x (i + 1) - x i) / (x (i + 2) - x i) * (splineSweep x y yp1 i).1 + 2.0),
       (6.0 * ((y (i + 2) - y (i + 1)) / (x (i + 2) - x (i + 1))
            - (y (i + 1) - y i) / (x (i + 1) - x i)) / (x (i + 2) - x i)
          - (x (i + 1) - x i) / (x (i + 2) - x i) * (splineSweep x y yp1 i).2) /
          ((x (i + 1) - x i) / (x (i + 2) - x i) * (splineSweep x y yp1 i).1 + 2.0)) := by
  rw [splineSweep, if_neg (by omega)]

/-- On a convex grid the ratio `sig` lies in `(0, 1/2]`. -/
theorem sig_bounds (x : Nat → α) (n : Nat) (hx : ConvexGrid x n) (i : Nat) (h1 : 1 ≤ i)
    (h2 : i + 2 ≤ n) :
    0 < (x (i + 1) - x i) / (x (i + 2) - x i) ∧
      (x (i + 1) - x i) / (x (i + 2) - x i) ≤ 1 / 2 := by
  obtain ⟨ha, hb⟩ := hx i h1 h2
  have hden : 0 < x (i + 2) - x i := by linarith
  refine ⟨div_pos ha hden, ?_⟩
  rw [div_le_iff₀ hden]
  linarith

/-- The decomposition factors stay in `[-1/2, 0]`. -/
theorem sweep_fst_bounds (x y : Nat → α) (n : Nat) (hx : ConvexGrid x n) (i : Nat)
    (h1 : 1 ≤ i) (h2 : i + 1 ≤ n) :
    -(1 / 2) ≤ (splineSweep x y 2.0E+30 i).1 ∧ (splineSweep x y 2.0E+30 i).1 ≤ 0 := by
  induction i with
  | zero => omega
  | succ i ih =>
    by_cases hi : i = 0
    · subst hi
      rw [splineSweep_one x y _ sentinel_gt]
      norm_num
    · obtain ⟨l, u⟩ := ih (by omega) (by omega)
      obtain ⟨s0, s1⟩ := sig_bounds x n hx i (by omega) (by omega)
      rw [splineSweep_succ x y _ i (by omega)]
      simp only []
      have hp : 0 < (x (i + 1) - x i) / (x (i + 2) - x i) * (splineSweep x y 2.0E+30 i).1
          + 2.0 := by
        norm_num
        nlinarith
      constructor
      · rw [le_div_iff₀ hp]
        norm_num
        nlinarith
      · apply div_nonpos_of_nonpos_of_nonneg _ hp.le
        norm_num
        linarith

/-- The denominator `p` of the sweep is at least three times `sig`. -/
theorem sweep_p_bounds (x y : Nat → α) (n : Nat) (hx : ConvexGrid x n) (i : Nat)
    (h1 : 1 ≤ i) (h2 : i + 2 ≤ n) :
    0 < (x (i + 1) - x i) / (x (i + 2) - x i) * (splineSweep x y 2.0E+30 i).1 + 2.0 ∧
    3 * ((x (i + 1) - x i) / (x (i + 2) - x i))
      ≤ (x (i + 1) - x i) / (x (i + 2) - x i) * (splineSweep x y 2.0E+30 i).1 + 2.0 := by
  obtain ⟨l, u⟩ := sweep_fst_bounds x y n hx i h1 (by omega)
  obtain ⟨s0, s1⟩ := sig_bounds x n hx i h1 h2
  constructor
  · norm_num
    nlinarith
  · norm_num
    nlinarith

/-- The right-hand side of the sweep at index `2` is positive for a spike. -/
theorem sweep_snd_two_pos (x y : Nat → α) (n : Nat) (hx : ConvexGrid x n)
    (hy : SpikeTable y n) (hn : 3 ≤ n) : 0 < (splineSweep x y 2.0E+30 2).2 := by
  obtain ⟨ha, hb⟩ := hx 1 (le_refl 1) hn
  rw [splineSweep_succ x y _ 1 (le_refl 1), splineSweep_one x y _ sentinel_gt]
  simp only []
  rw [hy.2 3 (by omega) hn, hy.2 2 (le_refl 2) (by omega)]
  have h31 : 0 < x 3 - x 1 := by linarith
  have h32 : 0 < x 3 - x 2 := by linarith
  have hy1 := hy.1
  have hdu : 0 < (0 - 0) / (x 3 - x 2) - (0 - y 1) / (x 2 - x 1) := by
    rw [sub_self, zero_div, zero_sub, zero_sub, neg_div, neg_neg]
    exact div_pos hy1 ha
  have hnum : 0 < 6.0 * ((0 - 0) / (x 3 - x 2) - (0 - y 1) / (x 2 - x 1)) / (x 3 - x 1)
      - (x 2 - x 1) / (x 3 - x 1) * 0 := by
    rw [mul_zero, sub_zero]
    exact div_pos (mul_pos (by norm_num) hdu) h31
  apply div_pos hnum
  norm_num

/-- Beyond the spike each right-hand side is at most a third of the previous one. -/
theorem sweep_snd_decay (x y : Nat → α) (n : Nat) (hx : ConvexGrid x n)
    (hy : SpikeTable y n) (i : Nat) (h1 : 2 ≤ i) (h2 : i + 2 ≤ n) :
    |(splineSweep x y 2.0E+30 (i + 1)).2| ≤ 1 / 3 * |(splineSweep x y 2.0E+30 i).2| := by
  obtain ⟨s0, s1⟩ := sig_bounds x n hx i (by omega) h2
  obtain ⟨hp, hp3⟩ := sweep_p_bounds x y n hx i (by omega) h2
  rw [splineSweep_succ x y _ i (by omega)]
  simp only []
  rw [hy.2 (i + 2) (by omega) h2, hy.2 (i + 1) (by omega) (by omega), hy.2 i h1 (by omega)]
  simp only [sub_self, zero_div, mul_zero, zero_sub]
  rw [abs_div, abs_neg, abs_mul, abs_of_pos hp, abs_of_pos s0, div_le_iff₀ hp]
  have hU := abs_nonneg (splineSweep x y 2.0E+30 i).2
  nlinarith

theorem splineBack_zero (x y : Nat → α) (n : Nat) :
    splineBack x y n 2.0E+30 2.0E+30 0 = 0 := by
  rw [splineBack]
  simp only [if_pos sentinel_gt]
  norm_num

theorem splineBack_succ (x y : Nat → α) (n : Nat) (yp1 ypn : α) (j : Nat) :
    splineBack x y n yp1 ypn (j + 1) =
      (splineSweep x y yp1 (n - (j + 1))).1 * splineBack x y n yp1 ypn j
        + (splineSweep x y yp1 (n - (j + 1))).2 := by
  rw [splineBack]

/-- Beyond the spike each second derivative is bounded by its right-hand side. -/
theorem splineBack_bound (x y : Nat → α) (n : Nat) (hx : ConvexGrid x n)
    (hy : SpikeTable y n) (j : Nat) (h1 : 1 ≤ j) (h2 : j + 3 ≤ n) :
    |splineBack x y n 2.0E+30 2.0E+30 j| ≤ 6 / 5 * |(splineSweep x y 2.0E+30 (n - j)).2| := by
  induction j with
  | zero => omega
  | succ j ih =>
    rw [splineBack_succ]
    by_cases hj : j = 0
    · subst hj
      rw [splineBack_zero, mul_zero, zero_add]
      have := abs_nonneg (splineSweep x y 2.0E+30 (n - (0 + 1))).2
      linarith
    · have ih' := ih (by omega) (by omega)
      have hdec := sweep_snd_decay x y n hx hy (n - (j + 1)) (by omega) (by omega)
      have hidx : n - (j + 1) + 1 = n - j := by omega
      rw [hidx] at hdec
      obtain ⟨l, u⟩ := sweep_fst_bounds x y n hx (n - (j + 1)) (by omega) (by omega)
      have hD : |(splineSweep x y 2.0E+30 (n - (j + 1))).1| ≤ 1 / 2 := by
        rw [abs_le]
        exact ⟨l, by linarith⟩
      have hB := abs_nonneg (splineBack x y n 2.0E+30 2.0E+30 j)
      have hU := abs_nonneg (splineSweep x y 2.0E+30 (n - (j + 1))).2
      calc |(splineSweep x y 2.0E+30 (n - (j + 1))).1 * splineBack x y n 2.0E+30 2.0E+30 j
              + (splineSweep x y 2.0E+30 (n - (j + 1))).2|
          ≤ |(splineSweep x y 2.0E+30 (n - (j + 1))).1
                * splineBack x y n 2.0E+30 2.0E+30 j|
              + |(splineSweep x y 2.0E+30 (n - (j + 1))).2| := abs_add _ _
        _ = |(splineSweep x y 2.0E+30 (n - (j + 1))).1|
                * |splineBack x y n 2.0E+30 2.0E+30 j|
              + |(splineSweep x y 2.0E+30 (n - (j + 1))).2| := by rw [abs_mul]
        _ ≤ 1 / 2 * |splineBack x y n 2.0E+30 2.0E+30 j|
              + |(splineSweep x y 2.0E+30 (n - (j + 1))).2| := by
            have := mul_le_mul_of_nonneg_right hD hB
            linarith
        _ ≤ 6 / 5 * |(splineSweep x y 2.0E+30 (n - (j + 1))).2| := by linarith

/-- For a spike on a convex grid the second derivatives at the indices `2` and `3`
satisfy `y2[2] ≥ (4/5) u` and `|y2[3]| ≤ (2/5) u` with `u > 0`. -/
theorem spline_spike (x y : Nat → α) (n : Nat) (hx : ConvexGrid x n)
    (hy : SpikeTable y n) (hn : 4 ≤ n) :
    0 < (splineSweep x y 2.0E+30 2).2 ∧
    4 / 5 * (splineSweep x y 2.0E+30 2).2 ≤ nr_spline x y n 2.0E+30 2.0E+30 2 ∧
    |nr_spline x y n 2.0E+30 2.0E+30 3| ≤ 2 / 5 * (splineSweep x y 2.0E+30 2).2 := by
  have hU := sweep_snd_two_pos x y n hx hy (by omega)
  have h3 : |splineBack x y n 2.0E+30 2.0E+30 (n - 3)|
      ≤ 2 / 5 * (splineSweep x y 2.0E+30 2).2 := by
    have hb := splineBack_bound x y n hx hy (n - 3) (by omega) (by omega)
    have hidx : n - (n - 3) = 2 + 1 := by omega
    rw [hidx] at hb
    have hdec := sweep_snd_decay x y n hx hy 2 (le_refl 2) (by omega)
    rw [abs_of_pos hU] at hdec
    linarith
  have h2 : splineBack x y n 2.0E+30 2.0E+30 (n - 2)
      = (splineSweep x y 2.0E+30 2).1 * splineBack x y n 2.0E+30 2.0E+30 (n - 3)
        + (splineSweep x y 2.0E+30 2).2 := by
    have hidx : n - 2 = (n - 3) + 1 := by omega
    rw [hidx, splineBack_succ]
    have hidx2 : n - (n - 3 + 1) = 2 := by omega
    rw [hidx2]
  obtain ⟨l, u⟩ := sweep_fst_bounds x y n hx 2 (by omega) (by omega)
  refine ⟨hU, ?_, ?_⟩
  · simp only [nr_spline]
    rw [if_pos ⟨by omega, by omega⟩, h2]
    have habs := abs_le.mp h3
    nlinarith [habs.1, habs.2]
  · simp only [nr_spline]
    rw [if_pos ⟨by omega, by omega⟩]
    exact h3

/-- The evaluator is negative strictly between the second and third table points of a
spike, whenever the bisection brackets the query by these two points. -/
theorem splint_spike_neg (x y : Nat → α) (n : Nat) (hx : ConvexGrid x n)
    (hy : SpikeTable y n) (hn : 4 ≤ n) (t : α) (hb : bisect x t n 1 n = (2, 3))
    (h2 : x 2 < t) (h3 : t < x 3) :
    nr_splint x y (nr_spline x y n 2.0E+30 2.0E+30) n t < 0 := by
  obtain ⟨hU, hM2, hM3⟩ := spline_spike x y n hx hy hn
  unfold nr_splint
  simp only [hb]
  rw [hy.2 2 (le_refl 2) (by omega), hy.2 3 (by omega) (by omega)]
  have hh : 0 < x 3 - x 2 := by linarith
  have ha0 : 0 < (x 3 - t) / (x 3 - x 2) := div_pos (by linarith) hh
  have hab : (t - x 2) / (x 3 - x 2) = 1 - (x 3 - t) / (x 3 - x 2) := by
    field_simp
  rw [hab]
  have ha1 : (x 3 - t) / (x 3 - x 2) < 1 := by
    rw [div_lt_one hh]
    linarith
  generalize (x 3 - t) / (x 3 - x 2) = a at ha0 ha1 ⊢
  generalize nr_spline x y n 2.0E+30 2.0E+30 2 = m2 at hM2 ⊢
  generalize nr_spline x y n 2.0E+30 2.0E+30 3 = m3 at hM3 ⊢
  generalize (splineSweep x y 2.0E+30 2).2 = u at hU hM2 hM3
  have habs := abs_le.mp hM3
  have hw1 : 0 < a - a * a * a := by nlinarith [mul_pos ha0 ha0]
  have hw2 : 0 < (1 - a) - (1 - a) * (1 - a) * (1 - a) := by
    nlinarith [mul_pos (sub_pos.mpr ha1) (sub_pos.mpr ha1)]
  have hkey : 4 * (a - a * a * a) - 2 * ((1 - a) - (1 - a) * (1 - a) * (1 - a))
      = 6 * (a * a * (1 - a)) := by ring
  have hpos : 0 < a * a * (1 - a) := mul_pos (mul_pos ha0 ha0) (sub_pos.mpr ha1)
  have hinner : (a * a * a - a) * m2 + ((1 - a) * (1 - a) * (1 - a) - (1 - a)) * m3 < 0 := by
    have e1 : (a - a * a * a) * (4 / 5 * u) ≤ (a - a * a * a) * m2 :=
      mul_le_mul_of_nonneg_left hM2 hw1.le
    have e2 : ((1 - a) - (1 - a) * (1 - a) * (1 - a)) * m3
        ≤ ((1 - a) - (1 - a) * (1 - a) * (1 - a)) * (2 / 5 * u) :=
      mul_le_mul_of_nonneg_left habs.2 hw2.le
    have e3 : -(((1 - a) - (1 - a) * (1 - a) * (1 - a)) * (2 / 5 * u))
        ≤ ((1 - a) - (1 - a) * (1 - a) * (1 - a)) * m3 := by
      have := mul_le_mul_of_nonneg_left habs.1 hw2.le
      linarith
    have e4 : 0 < u * (a * a * (1 - a)) := mul_pos hU hpos
    have hk : u * (4 * (a - a * a * a) - 2 * ((1 - a) - (1 - a) * (1 - a) * (1 - a)))
        = 6 * (u * (a * a * (1 - a))) := by
      rw [hkey]
      ring
    linarith
  have hhh : 0 < (x 3 - x 2) * (x 3 - x 2) / 6.0 := by positivity
  have : a * 0 + (1 - a) * 0
      + ((a * a * a - a) * m2 + ((1 - a) * (1 - a) * (1 - a) - (1 - a)) * m3)
        * ((x 3 - x 2) * (x 3 - x 2)) / 6.0
      = ((a * a * a - a) * m2 + ((1 - a) * (1 - a) * (1 - a) - (1 - a)) * m3)
        * ((x 3 - x 2) * (x 3 - x 2) / 6.0) := by ring
  rw [this]
  exact mul_neg_of_neg_of_pos hinner hhh

/-- The bisection over `1..100` for a query between the second and third points. -/
theorem bisect_two_three (x : Nat → α) (t : α) (h2 : ¬ x 2 > t) (h3 : x 3 > t)
    (h4 : x 4 > t) (h7 : x 7 > t) (h13 : x 13 > t) (h25 : x 25 > t) (h50 : x 50 > t) :
    bisect x t 100 1 100 = (2, 3) := by
  rw [bisect, if_pos (by norm_num), show (100 + 1) / 2 = 50 from rfl, if_pos h50]
  rw [bisect, if_pos (by norm_num), show (50 + 1) / 2 = 25 from rfl, if_pos h25]
  rw [bisect, if_pos (by norm_num), show (25 + 1) / 2 = 13 from rfl, if_pos h13]
  rw [bisect, if_pos (by norm_num), show (13 + 1) / 2 = 7 from rfl, if_pos h7]
  rw [bisect, if_pos (by norm_num), show (7 + 1) / 2 = 4 from rfl, if_pos h4]
  rw [bisect, if_pos (by norm_num), show (4 + 1) / 2 = 2 from rfl, if_neg h2]
  rw [bisect, if_pos (by norm_num), show (4 + 2) / 2 = 3 from rfl, if_pos h3]
  rw [bisect, if_neg (by norm_num)]

end Spline

/-! ## The grid over the reals -/

section RealGrid

/-- The radius `(3 M_max / (4 π Δ ρ Ω))^(1/3)` is positive for positive constants. -/
theorem rmax_pos (cfg : Config ℝ) (E : Env ℝ) (hpow : E.pow = fun a b => a ^ b)
    (hM : 0 < cfg.M_max) (hPI : 0 < cfg.PI) (hD : 0 < cfg.DELTA_HALO)
    (hR : 0 < cfg.RHO_CRIT) (hO : 0 < cfg.OMEGA_M) : 0 < rmax cfg E := by
  unfold rmax
  rw [hpow]
  have hc : 0 < 3 * cfg.M_max / (4 * cfg.PI * cfg.DELTA_HALO * cfg.RHO_CRIT * cfg.OMEGA_M) := by
    positivity
  have := Real.rpow_pos_of_pos hc (1.0 / 3.0)
  positivity

theorem gridPoint_first (E : Env ℝ) (hexp : E.exp = Real.exp) (hlog : E.log = Real.log)
    (d : ℝ) : gridPoint E d (rlo E) 1 = 0.01 := by
  unfold gridPoint rlo
  rw [hexp, hlog]
  simp only [Nat.cast_one, sub_self, Int.cast_zero, zero_mul, zero_add]
  exact Real.exp_log (by norm_num)

theorem gridPoint_last (cfg : Config ℝ) (E : Env ℝ) (hexp : E.exp = Real.exp)
    (hlog : E.log = Real.log) (n : Nat) (hn : 2 ≤ n) (hpos : 0 < rmax cfg E) :
    gridPoint E (dr cfg E n) (rlo E) n = rmax cfg E := by
  unfold gridPoint dr
  have hne : ((((n : Int) - 1 : Int)) : ℝ) ≠ 0 := by
    have : (2 : ℝ) ≤ (n : ℝ) := by exact_mod_cast hn
    push_cast
    linarith
  rw [mul_div_cancel₀ _ hne, sub_add_cancel, rhi_eq_log_rmax, hexp, hlog]
  exact Real.exp_log hpos

/-- The grid increases with the index exactly when `dr` is positive. -/
theorem gridPoint_lt (E : Env ℝ) (hexp : E.exp = Real.exp) (d lo : ℝ) (hd : 0 < d)
    (i j : Nat) (hij : i < j) : gridPoint E d lo i < gridPoint E d lo j := by
  unfold gridPoint
  rw [hexp, Real.exp_lt_exp]
  have : (i : ℝ) < (j : ℝ) := by exact_mod_cast hij
  push_cast
  nlinarith

theorem dr_pos (cfg : Config ℝ) (E : Env ℝ) (hlog : E.log = Real.log) (n : Nat)
    (hn : 2 ≤ n) (hr : 0.01 < rmax cfg E) : 0 < dr cfg E n := by
  unfold dr
  rw [rhi_eq_log_rmax]
  unfold rlo
  rw [hlog]
  have h1 : Real.log 0.01 < Real.log (rmax cfg E) := Real.log_lt_log (by norm_num) hr
  have h2 : (0 : ℝ) < ((((n : Int) - 1 : Int)) : ℝ) := by
    have : (2 : ℝ) ≤ (n : ℝ) := by exact_mod_cast hn
    push_cast
    linarith
  exact div_pos (by linarith) h2

theorem dr_nonneg (cfg : Config ℝ) (E : Env ℝ) (hlog : E.log = Real.log) (n : Nat)
    (hn : 2 ≤ n) (hr : 0.01 ≤ rmax cfg E) : 0 ≤ dr cfg E n := by
  unfold dr
  rw [rhi_eq_log_rmax]
  unfold rlo
  rw [hlog]
  have h1 : Real.log 0.01 ≤ Real.log (rmax cfg E) := Real.log_le_log (by norm_num) hr
  have h2 : (0 : ℝ) < ((((n : Int) - 1 : Int)) : ℝ) := by
    have : (2 : ℝ) ≤ (n : ℝ) := by exact_mod_cast hn
    push_cast
    linarith
  exact div_nonneg (by linarith) h2.le

theorem dr_neg (cfg : Config ℝ) (E : Env ℝ) (hlog : E.log = Real.log) (n : Nat)
    (hn : 2 ≤ n) (hpos : 0 < rmax cfg E) (hr : rmax cfg E < 0.01) : dr cfg E n < 0 := by
  unfold dr
  rw [rhi_eq_log_rmax]
  unfold rlo
  rw [hlog]
  have h1 : Real.log (rmax cfg E) < Real.log 0.01 := Real.log_lt_log hpos hr
  have h2 : (0 : ℝ) < ((((n : Int) - 1 : Int)) : ℝ) := by
    have : (2 : ℝ) ≤ (n : ℝ) := by exact_mod_cast hn
    push_cast
    linarith
  exact div_neg_of_neg_of_pos (by linarith) h2

theorem gridPoint_le (E : Env ℝ) (hexp : E.exp = Real.exp) (d lo : ℝ) (hd : 0 ≤ d)
    (i j : Nat) (hij : i ≤ j) : gridPoint E d lo i ≤ gridPoint E d lo j := by
  unfold gridPoint
  rw [hexp, Real.exp_le_exp]
  have : (i : ℝ) ≤ (j : ℝ) := by exact_mod_cast hij
  push_cast
  nlinarith

/-- With a negative `dr` the second grid point lies below the first. -/
theorem gridPoint_two_lt_one (E : Env ℝ) (hexp : E.exp = Real.exp) (d lo : ℝ) (hd : d < 0) :
    gridPoint E d lo 2 < gridPoint E d lo 1 := by
  unfold gridPoint
  rw [hexp, Real.exp_lt_exp]
  push_cast
  linarith

/-- The cube of the cube root. -/
theorem cube_of_cube_root (c : ℝ) (hc : 0 ≤ c) : (c ^ ((1.0 : ℝ) / 3.0)) ^ 3 = c := by
  rw [← Real.rpow_natCast, ← Real.rpow_mul hc]
  norm_num

/-- The mass enclosed at half the target separation `rmax` is `0.95^3 M_max`. -/
theorem mass_at_rmax (cfg : Config ℝ) (E : Env ℝ) (hpow : E.pow = fun a b => a ^ b)
    (hM : 0 < cfg.M_max) (hPI : 0 < cfg.PI) (hD : 0 < cfg.DELTA_HALO)
    (hR : 0 < cfg.RHO_CRIT) (hO : 0 < cfg.OMEGA_M) :
    4.0 / 3.0 * cfg.PI * cfg.RHO_CRIT * cfg.DELTA_HALO * cfg.OMEGA_M * (rmax cfg E * 0.5) ^ 3
      = 0.857375 * cfg.M_max := by
  have hc : 0 ≤ 3 * cfg.M_max / (4 * cfg.PI * cfg.DELTA_HALO * cfg.RHO_CRIT * cfg.OMEGA_M) := by
    positivity
  have h3 := cube_of_cube_root _ hc
  unfold rmax
  rw [hpow]
  simp only []
  rw [mul_pow, mul_pow, h3]
  field_simp
  ring

/-- For `M_max = 1.0E+6` and the round constants the target separation is below `0.01`. -/
theorem rmax_small (v : ℝ) :
    rmax (testConfig 1 1.0E+5 1.0E+6 Real.pi) (testEnv Real.exp Real.log (fun a b => a ^ b) v) < 0.01 := by
  have hpi := Real.pi_gt_three
  have hc0 : (0 : ℝ) ≤ 3 * 1.0E+6 / (4 * Real.pi * 200 * 2.775E+11 * 0.3) := by positivity
  have hc : (3 : ℝ) * 1.0E+6 / (4 * Real.pi * 200 * 2.775E+11 * 0.3) < (1 / 190) ^ 3 := by
    rw [div_lt_iff₀ (by positivity)]
    norm_num
    nlinarith
  have h := Real.rpow_lt_rpow hc0 hc (by norm_num : (0 : ℝ) < 1.0 / 3.0)
  have e : (((1 : ℝ) / 190) ^ 3) ^ ((1.0 : ℝ) / 3.0) = 1 / 190 := by
    rw [← Real.rpow_natCast, ← Real.rpow_mul (by norm_num)]
    norm_num
  rw [e] at h
  show 1.9 * (3 * 1.0E+6 / (4 * Real.pi * 200 * 2.775E+11 * 0.3)) ^ ((1.0 : ℝ) / 3.0) < 0.01
  linarith

/-- For `M_max = 1.0E+15` and the round constants the target separation exceeds `1.9`. -/
theorem rmax_large (v : ℝ) :
    1.9 ≤ rmax (testConfig 1 1.0E+11 1.0E+15 Real.pi)
      (testEnv Real.exp Real.log (fun a b => a ^ b) v) := by
  have hpi := Real.pi_le_four
  have hpi0 := Real.pi_pos
  have hc : (1 : ℝ) ≤ 3 * 1.0E+15 / (4 * Real.pi * 200 * 2.775E+11 * 0.3) := by
    rw [le_div_iff₀ (by positivity)]
    norm_num
    nlinarith
  have h := Real.one_le_rpow hc (by norm_num : (0 : ℝ) ≤ 1.0 / 3.0)
  show 1.9 ≤ 1.9 * (3 * 1.0E+15 / (4 * Real.pi * 200 * 2.775E+11 * 0.3)) ^ ((1.0 : ℝ) / 3.0)
  linarith

/-- On the grid the lower mass bound is positive and below `HOD.M_max`. -/
theorem mloAt_bounds (cfg : Config ℝ) (E : Env ℝ) (n i : Nat)
    (hexp : E.exp = Real.exp) (hlog : E.log = Real.log) (hpow : E.pow = fun a b => a ^ b)
    (hPI : 0 < cfg.PI) (hD : 0 < cfg.DELTA_HALO) (hR : 0 < cfg.RHO_CRIT)
    (hO : 0 < cfg.OMEGA_M) (hlow : 0 < cfg.M_low) (hlt : cfg.M_low < cfg.M_max)
    (hr : 0.01 ≤ rmax cfg E) (hn : 2 ≤ n) (hin : i ≤ n) :
    mloAt cfg E (dr cfg E n) (rlo E) i < cfg.M_max ∧
      0 < mloAt cfg E (dr cfg E n) (rlo E) i := by
  have hM : 0 < cfg.M_max := lt_trans hlow hlt
  have hrpos : 0 < rmax cfg E := lt_of_lt_of_le (by norm_num) hr
  have hgpos : 0 < gridPoint E (dr cfg E n) (rlo E) i := by
    unfold gridPoint
    rw [hexp]
    exact Real.exp_pos _
  have hgle : gridPoint E (dr cfg E n) (rlo E) i ≤ rmax cfg E := by
    rw [← gridPoint_last cfg E hexp hlog n hn hrpos]
    exact gridPoint_le E hexp _ _ (dr_nonneg cfg E hlog n hn hr) i n hin
  have hcube : (gridPoint E (dr cfg E n) (rlo E) i * 0.5) ^ 3 ≤ (rmax cfg E * 0.5) ^ 3 :=
    pow_le_pow_left₀ (by positivity) (by linarith) 3
  have hK : 0 < 4.0 / 3.0 * cfg.PI * cfg.RHO_CRIT * cfg.DELTA_HALO * cfg.OMEGA_M := by
    positivity
  have hmass : 4.0 / 3.0 * cfg.PI * cfg.RHO_CRIT * cfg.DELTA_HALO * cfg.OMEGA_M *
      (gridPoint E (dr cfg E n) (rlo E) i * 0.5) ^ 3 < cfg.M_max := by
    have h1 := mul_le_mul_of_nonneg_left hcube hK.le
    rw [mass_at_rmax cfg E hpow hM hPI hD hR hO] at h1
    linarith
  have hthree : (3.0 : ℝ) = ((3 : ℕ) : ℝ) := by norm_num
  unfold mloAt
  simp only []
  rw [hpow]
  simp only []
  rw [hthree, Real.rpow_natCast, ← hthree]
  split_ifs with hc
  · exact ⟨hlt, hlow⟩
  · exact ⟨hmass, lt_of_lt_of_le hlow (not_lt.mp hc)⟩

/-- The grid is geometric: `r_(k+1) = 0.01 * exp(k * dr)`. -/
theorem gridPoint_eq (E : Env ℝ) (hexp : E.exp = Real.exp) (hlog : E.log = Real.log)
    (d : ℝ) (k : Nat) : gridPoint E d (rlo E) (k + 1) = 0.01 * Real.exp ((k : ℝ) * d) := by
  unfold gridPoint rlo
  rw [hexp, hlog]
  push_cast
  rw [add_sub_cancel_right, Real.exp_add, Real.exp_log (by norm_num), mul_comm]

/-- A geometric grid with positive `dr` increases with non-decreasing steps. -/
theorem gridPoint_convex (E : Env ℝ) (hexp : E.exp = Real.exp) (hlog : E.log = Real.log)
    (d : ℝ) (hd : 0 < d) (k : Nat) :
    0 < gridPoint E d (rlo E) (k + 2) - gridPoint E d (rlo E) (k + 1) ∧
    gridPoint E d (rlo E) (k + 2) - gridPoint E d (rlo E) (k + 1)
      ≤ gridPoint E d (rlo E) (k + 3) - gridPoint E d (rlo E) (k + 2) := by
  rw [gridPoint_eq E hexp hlog d k, gridPoint_eq E hexp hlog d (k + 1),
    gridPoint_eq E hexp hlog d (k + 2)]
  have e1 : Real.exp (((k + 1 : ℕ) : ℝ) * d) = Real.exp ((k : ℝ) * d) * Real.exp d := by
    rw [← Real.exp_add]
    push_cast
    ring_nf
  have e2 : Real.exp (((k + 2 : ℕ) : ℝ) * d)
      = Real.exp ((k : ℝ) * d) * Real.exp d * Real.exp d := by
    rw [← Real.exp_add, ← Real.exp_add]
    push_cast
    ring_nf
  rw [e1, e2]
  have hg := Real.exp_pos ((k : ℝ) * d)
  have ht : 1 < Real.exp d := by
    have := Real.add_one_lt_exp (ne_of_gt hd)
    linarith
  have hgt : 0 < Real.exp ((k : ℝ) * d) * (Real.exp d - 1) := mul_pos hg (by linarith)
  constructor
  · nlinarith
  · nlinarith [mul_pos hgt (by linarith : (0 : ℝ) < Real.exp d - 1)]

/-- For `M_max = 1.0E+15` and the round constants the target separation lies between
`1.9` and `4.75`. -/
theorem rmax_window (E : Env ℝ) (hpow : E.pow = fun a b => a ^ b) :
    1.9 ≤ rmax (testConfig 1 1.0E+11 1.0E+15 Real.pi) E ∧
      rmax (testConfig 1 1.0E+11 1.0E+15 Real.pi) E ≤ 4.75 := by
  have hpi3 := Real.pi_gt_three
  have hpi4 := Real.pi_le_four
  have hc0 : (0 : ℝ) ≤ 3 * 1.0E+15 / (4 * Real.pi * 200 * 2.775E+11 * 0.3) := by positivity
  have hc1 : (1 : ℝ) ≤ 3 * 1.0E+15 / (4 * Real.pi * 200 * 2.775E+11 * 0.3) := by
    rw [le_div_iff₀ (by positivity)]
    norm_num
    nlinarith
  have hc2 : (3 : ℝ) * 1.0E+15 / (4 * Real.pi * 200 * 2.775E+11 * 0.3) ≤ (5 / 2) ^ 3 := by
    rw [div_le_iff₀ (by positivity)]
    norm_num
    nlinarith
  have h1 := Real.one_le_rpow hc1 (by norm_num : (0 : ℝ) ≤ 1.0 / 3.0)
  have h2 := Real.rpow_le_rpow hc0 hc2 (by norm_num : (0 : ℝ) ≤ 1.0 / 3.0)
  have e : (((5 : ℝ) / 2) ^ 3) ^ ((1.0 : ℝ) / 3.0) = 5 / 2 := by
    rw [← Real.rpow_natCast, ← Real.rpow_mul (by norm_num)]
    norm_num
  rw [e] at h2
  unfold rmax
  rw [hpow]
  simp only [testConfig]
  constructor
  · linarith
  · linarith

/-- For `M_max = 1.0E+15`, the round constants and `n = 100` the step `dr` lies between
`5/99` and `8/99`. -/
theorem dr_window (E : Env ℝ) (hlog : E.log = Real.log) (hpow : E.pow = fun a b => a ^ b) :
    5 / 99 ≤ dr (testConfig 1 1.0E+11 1.0E+15 Real.pi) E 100 ∧
      dr (testConfig 1 1.0E+11 1.0E+15 Real.pi) E 100 ≤ 8 / 99 := by
  obtain ⟨hlo, hhi⟩ := rmax_window E hpow
  have hpos : 0 < rmax (testConfig 1 1.0E+11 1.0E+15 Real.pi) E := by linarith
  have he5 : Real.exp 5 ≤ 190 := by
    have h : Real.exp 5 = Real.exp 1 ^ 5 := by
      rw [← Real.exp_nat_mul]
      norm_num
    rw [h]
    have := pow_le_pow_left₀ (Real.exp_pos 1).le Real.exp_one_lt_d9.le 5
    have h9 : (2.7182818286 : ℝ) ^ 5 ≤ 190 := by norm_num
    linarith
  have he8 : 475 ≤ Real.exp 8 := by
    have h : Real.exp 8 = Real.exp 1 ^ 8 := by
      rw [← Real.exp_nat_mul]
      norm_num
    rw [h]
    have := pow_le_pow_left₀ (by norm_num : (0 : ℝ) ≤ 2.7182818283)
      Real.exp_one_gt_d9.le 8
    have h9 : (475 : ℝ) ≤ 2.7182818283 ^ 8 := by norm_num
    linarith
  have hdiff : Real.log (rmax (testConfig 1 1.0E+11 1.0E+15 Real.pi) E) - Real.log 0.01
      = Real.log (rmax (testConfig 1 1.0E+11 1.0E+15 Real.pi) E / 0.01) := by
    rw [Real.log_div (ne_of_gt hpos) (by norm_num)]
  have hq : 0 < rmax (testConfig 1 1.0E+11 1.0E+15 Real.pi) E / 0.01 := by positivity
  have h5 : 5 ≤ Real.log (rmax (testConfig 1 1.0E+11 1.0E+15 Real.pi) E / 0.01) := by
    rw [Real.le_log_iff_exp_le hq, le_div_iff₀ (by norm_num)]
    linarith
  have h8 : Real.log (rmax (testConfig 1 1.0E+11 1.0E+15 Real.pi) E / 0.01) ≤ 8 := by
    rw [Real.log_le_iff_le_exp hq, div_le_iff₀ (by norm_num)]
    linarith
  unfold dr
  rw [rhi_eq_log_rmax]
  unfold rlo
  rw [hlog, hdiff]
  push_cast
  constructor
  · rw [le_div_iff₀ (by norm_num)]
    linarith
  · rw [div_le_iff₀ (by norm_num)]
    linarith

end RealGrid

/-! ## A run whose table is a spike -/

section SpikeRun

theorem func1_rvir_pos (cfg : Config ℝ) (E : Env ℝ) (hpow : E.pow = fun a b => a ^ b)
    (hPI : 0 < cfg.PI) (hD : 0 < cfg.DELTA_HALO) (hR : 0 < cfg.RHO_CRIT)
    (hO : 0 < cfg.OMEGA_M) (m : ℝ) (hm : 0 < m) : 0 < func1_rvir cfg E m := by
  unfold func1_rvir
  rw [hpow]
  have hc : 0 < 3.0 * m / (4 * cfg.DELTA_HALO * cfg.PI * cfg.OMEGA_M * cfg.RHO_CRIT) := by
    positivity
  have := Real.rpow_pos_of_pos hc (1.0 / 3.0)
  positivity

/-- The integrand of the spike run: positive for separations up to `0.01005`, zero
beyond, at every mass. -/
theorem func1_spike (cfg : Config ℝ) (hPI : 0 < cfg.PI) (hD : 0 < cfg.DELTA_HALO)
    (hR : 0 < cfg.RHO_CRIT) (hO : 0 < cfg.OMEGA_M) (hC : cfg.CVIR_FAC = 1) (t μ : ℝ) :
    (t ≤ 0.01005 →
      0 < func1 cfg (spikeEnv Real.exp Real.log (fun a b => a ^ b) cfg) t μ) ∧
    (0.01005 < t →
      func1 cfg (spikeEnv Real.exp Real.log (fun a b => a ^ b) cfg) t μ = 0) := by
  have hV := func1_rvir_pos cfg (spikeEnv Real.exp Real.log (fun a b => a ^ b) cfg) rfl
    hPI hD hR hO (Real.exp μ) (Real.exp_pos μ)
  have hcond : t / func1_rvir cfg (spikeEnv Real.exp Real.log (fun a b => a ^ b) cfg)
        (Real.exp μ)
      * (func1_rvir cfg (spikeEnv Real.exp Real.log (fun a b => a ^ b) cfg) (Real.exp μ)
        * cfg.CVIR_FAC) = t := by
    rw [hC, mul_one]
    exact div_mul_cancel₀ t (ne_of_gt hV)
  have hval : func1 cfg (spikeEnv Real.exp Real.log (fun a b => a ^ b) cfg) t μ
      = 1 * ((if t / func1_rvir cfg (spikeEnv Real.exp Real.log (fun a b => a ^ b) cfg)
                  (Real.exp μ)
                * (func1_rvir cfg (spikeEnv Real.exp Real.log (fun a b => a ^ b) cfg)
                  (Real.exp μ) * cfg.CVIR_FAC) ≤ 0.01005 then 1 else 0) * 1 * 0.5
            + (if t / func1_rvir cfg (spikeEnv Real.exp Real.log (fun a b => a ^ b) cfg)
                  (Real.exp μ)
                * (func1_rvir cfg (spikeEnv Real.exp Real.log (fun a b => a ^ b) cfg)
                  (Real.exp μ) * cfg.CVIR_FAC) ≤ 0.01005 then 1 else 0) * 1 * 1)
          / func1_rvir cfg (spikeEnv Real.exp Real.log (fun a b => a ^ b) cfg) (Real.exp μ)
          * Real.exp μ := by
    rw [func1_uses_rvir]
    rfl
  rw [hval, hcond]
  constructor
  · intro ht
    rw [if_pos ht]
    have : 0 < (1 : ℝ) * (1 * 1 * 0.5 + 1 * 1 * 1) := by norm_num
    exact mul_pos (div_pos this hV) (Real.exp_pos μ)
  · intro ht
    rw [if_neg (not_le.mpr ht)]
    norm_num

/-- The samples of the spike run: positive where the separation is at most `0.01005`,
zero where it is larger. -/
theorem sampleValue_spike (cfg : Config ℝ) (E : Env ℝ)
    (hE : E = spikeEnv Real.exp Real.log (fun a b => a ^ b) cfg) (n i : Nat)
    (hPI : 0 < cfg.PI) (hD : 0 < cfg.DELTA_HALO) (hR : 0 < cfg.RHO_CRIT)
    (hO : 0 < cfg.OMEGA_M) (hC : cfg.CVIR_FAC = 1) (hlow : 0 < cfg.M_low)
    (hlt : cfg.M_low < cfg.M_max)
    (hGD : 0 < cfg.GALAXY_DENSITY) (hr : 0.01 ≤ rmax cfg E) (hn : 2 ≤ n) (hin : i ≤ n) :
    (gridPoint E (dr cfg E n) (rlo E) i ≤ 0.01005 →
      0 < sampleValue cfg E (dr cfg E n) (rlo E) cfg.GALAXY_DENSITY i) ∧
    (0.01005 < gridPoint E (dr cfg E n) (rlo E) i →
      sampleValue cfg E (dr cfg E n) (rlo E) cfg.GALAXY_DENSITY i = 0) := by
  have hexp : E.exp = Real.exp := by rw [hE]; rfl
  have hlog : E.log = Real.log := by rw [hE]; rfl
  have hpow : E.pow = fun a b => a ^ b := by rw [hE]; rfl
  obtain ⟨hm1, hm2⟩ := mloAt_bounds cfg E n i hexp hlog hpow hPI hD hR hO hlow hlt hr hn hin
  have hg : 0 < gridPoint E (dr cfg E n) (rlo E) i := by
    unfold gridPoint
    rw [hexp]
    exact Real.exp_pos _
  have hlogs : 0 < Real.log cfg.M_max - Real.log (mloAt cfg E (dr cfg E n) (rlo E) i) := by
    have := Real.log_lt_log hm2 hm1
    linarith
  have hsv : sampleValue cfg E (dr cfg E n) (rlo E) cfg.GALAXY_DENSITY i
      = 1.0 / (2 * cfg.PI * gridPoint E (dr cfg E n) (rlo E) i *
            gridPoint E (dr cfg E n) (rlo E) i * cfg.GALAXY_DENSITY * cfg.GALAXY_DENSITY) *
          ((Real.log cfg.M_max - Real.log (mloAt cfg E (dr cfg E n) (rlo E) i)) *
            func1 cfg E (gridPoint E (dr cfg E n) (rlo E) i)
              ((Real.log (mloAt cfg E (dr cfg E n) (rlo E) i) + Real.log cfg.M_max) / 2)) := by
    subst hE
    rfl
  have hf := func1_spike cfg hPI hD hR hO hC (gridPoint E (dr cfg E n) (rlo E) i)
    ((Real.log (mloAt cfg E (dr cfg E n) (rlo E) i) + Real.log cfg.M_max) / 2)
  rw [← hE] at hf
  rw [hsv]
  constructor
  · intro h
    have hfac : 0 < 1.0 / (2 * cfg.PI * gridPoint E (dr cfg E n) (rlo E) i *
        gridPoint E (dr cfg E n) (rlo E) i * cfg.GALAXY_DENSITY * cfg.GALAXY_DENSITY) := by
      positivity
    exact mul_pos hfac (mul_pos hlogs (hf.1 h))
  · intro h
    rw [hf.2 h, mul_zero, mul_zero]

/-- The table built in the spike run with `M_max = 1.0E+15`: the grid is convex, the
samples form a spike, and the query `0.011` lies strictly between `x[2]` and `x[3]`. -/
theorem spike_run_table (E : Env ℝ)
    (hE : E = spikeEnv Real.exp Real.log (fun a b => a ^ b)
      (testConfig 1 1.0E+11 1.0E+15 Real.pi)) (s : State ℝ) :
    ConvexGrid (rebuild (testConfig 1 1.0E+11 1.0E+15 Real.pi) E 100 s).x 100 ∧
    SpikeTable (rebuild (testConfig 1 1.0E+11 1.0E+15 Real.pi) E 100 s).y 100 ∧
    (rebuild (testConfig 1 1.0E+11 1.0E+15 Real.pi) E 100 s).x 1 = 0.01 ∧
    (rebuild (testConfig 1 1.0E+11 1.0E+15 Real.pi) E 100 s).x 2 < 0.011 ∧
    (∀ k, 3 ≤ k → k ≤ 100 →
      0.011 < (rebuild (testConfig 1 1.0E+11 1.0E+15 Real.pi) E 100 s).x k) := by
  have hexp : E.exp = Real.exp := by rw [hE]; rfl
  have hlog : E.log = Real.log := by rw [hE]; rfl
  have hpow : E.pow = fun a b => a ^ b := by rw [hE]; rfl
  obtain ⟨hd5, hd8⟩ := dr_window E hlog hpow
  obtain ⟨hr19, _⟩ := rmax_window E hpow
  have hd : 0 < dr (testConfig 1 1.0E+11 1.0E+15 Real.pi) E 100 := by linarith
  have hPI : 0 < (testConfig 1 1.0E+11 1.0E+15 Real.pi : Config ℝ).PI := Real.pi_pos
  have hD : 0 < (testConfig 1 1.0E+11 1.0E+15 Real.pi : Config ℝ).DELTA_HALO := by
    norm_num [testConfig]
  have hR : 0 < (testConfig 1 1.0E+11 1.0E+15 Real.pi : Config ℝ).RHO_CRIT := by
    norm_num [testConfig]
  have hO : 0 < (testConfig 1 1.0E+11 1.0E+15 Real.pi : Config ℝ).OMEGA_M := by
    norm_num [testConfig]
  have hlow : 0 < (testConfig 1 1.0E+11 1.0E+15 Real.pi : Config ℝ).M_low := by
    norm_num [testConfig]
  have hlt : (testConfig 1 1.0E+11 1.0E+15 Real.pi : Config ℝ).M_low
      < (testConfig 1 1.0E+11 1.0E+15 Real.pi : Config ℝ).M_max := by
    norm_num [testConfig]
  have hGD : 0 < (testConfig 1 1.0E+11 1.0E+15 Real.pi : Config ℝ).GALAXY_DENSITY := by
    norm_num [testConfig]
  have hr : 0.01 ≤ rmax (testConfig 1 1.0E+11 1.0E+15 Real.pi) E := by linarith
  have hx : ∀ k, 1 ≤ k → k ≤ 100 →
      (rebuild (testConfig 1 1.0E+11 1.0E+15 Real.pi) E 100 s).x k
        = gridPoint E (dr (testConfig 1 1.0E+11 1.0E+15 Real.pi) E 100) (rlo E) k :=
    fun k h1 h2 => rebuild_x _ E 100 s k h1 h2
  have hexp1 : 1 + dr (testConfig 1 1.0E+11 1.0E+15 Real.pi) E 100
      ≤ Real.exp (dr (testConfig 1 1.0E+11 1.0E+15 Real.pi) E 100) := by
    have := Real.add_one_le_exp (dr (testConfig 1 1.0E+11 1.0E+15 Real.pi) E 100)
    linarith
  have hg2 : gridPoint E (dr (testConfig 1 1.0E+11 1.0E+15 Real.pi) E 100) (rlo E) 2
      = 0.01 * Real.exp (dr (testConfig 1 1.0E+11 1.0E+15 Real.pi) E 100) := by
    rw [gridPoint_eq E hexp hlog _ 1]
    norm_num
  have hg3 : gridPoint E (dr (testConfig 1 1.0E+11 1.0E+15 Real.pi) E 100) (rlo E) 3
      = 0.01 * Real.exp (2 * dr (testConfig 1 1.0E+11 1.0E+15 Real.pi) E 100) := by
    rw [gridPoint_eq E hexp hlog _ 2]
    norm_num
  refine ⟨?_, ⟨?_, ?_⟩, ?_, ?_, ?_⟩
  · intro i h1 h2
    obtain ⟨k, rfl⟩ : ∃ k, i = k + 1 := ⟨i - 1, by omega⟩
    rw [hx (k + 1) (by omega) (by omega), hx (k + 1 + 1) (by omega) (by omega),
      hx (k + 1 + 2) (by omega) (by omega)]
    exact gridPoint_convex E hexp hlog _ hd k
  · rw [rebuild_y_first _ E 100 s (by norm_num)]
    apply (sampleValue_spike _ E hE 100 1 hPI hD hR hO rfl hlow hlt hGD hr (by norm_num)
      (by norm_num)).1
    rw [gridPoint_first E hexp hlog]
    norm_num
  · intro j h1 h2
    rcases rebuild_y_cases (testConfig 1 1.0E+11 1.0E+15 Real.pi) E 100 s j (by omega) h2
      with h | h
    · exact h
    · rw [h]
      apply (sampleValue_spike _ E hE 100 j hPI hD hR hO rfl hlow hlt hGD hr (by norm_num)
        h2).2
      have hle := gridPoint_le E hexp (dr (testConfig 1 1.0E+11 1.0E+15 Real.pi) E 100)
        (rlo E) hd.le 2 j h1
      rw [hg2] at hle
      nlinarith
  · rw [hx 1 (le_refl 1) (by norm_num)]
    exact gridPoint_first E hexp hlog _
  · rw [hx 2 (by norm_num) (by norm_num), hg2]
    have hmono : Real.exp (dr (testConfig 1 1.0E+11 1.0E+15 Real.pi) E 100)
        ≤ Real.exp (8 / 99) := Real.exp_le_exp.mpr hd8
    have hneg := Real.add_one_le_exp (-(8 / 99 : ℝ))
    have hprod : Real.exp (8 / 99) * Real.exp (-(8 / 99 : ℝ)) = 1 := by
      rw [← Real.exp_add]
      norm_num
    have hp := Real.exp_pos (8 / 99 : ℝ)
    have hup : Real.exp (8 / 99) ≤ 99 / 91 := by nlinarith
    linarith
  · intro k h1 h2
    rw [hx k (by omega) h2]
    have hle := gridPoint_le E hexp (dr (testConfig 1 1.0E+11 1.0E+15 Real.pi) E 100)
      (rlo E) hd.le 3 k h1
    rw [hg3] at hle
    have h2d := Real.add_one_le_exp (2 * dr (testConfig 1 1.0E+11 1.0E+15 Real.pi) E 100)
    nlinarith

end SpikeRun

/-! ## The properties -/

section Claims

variable {α : Type} [LinearOrderedField α]

/-- C1 (range guard).  With the model enabled, a query `r` below `x[1]` or above
`x[n]` of the table that is current after the build step returns exactly `0`; the
state handed back is the state after the build step, so the spline evaluator
`splint` has not been called. -/
theorem range_guard (cfg : Config α) (E : Env α) (r : α) (s : State α)
    (hp : cfg.pdfs ≠ 0)
    (hr : r < (afterBuildStep cfg E s).x 1 ∨ r > (afterBuildStep cfg E s).x 100) :
    (one_halo_real_space cfg E r s).1 = 0 ∧
    (one_halo_real_space cfg E r s).2 = afterBuildStep cfg E s ∧
    (one_halo_real_space cfg E r s).2.g.calls.splint = s.g.calls.splint := by
  have h : one_halo_real_space cfg E r s = (0, afterBuildStep cfg E s) := by
    rw [one_halo_enabled cfg E r s hp]
    rcases hr with h1 | h2
    · split_ifs <;> rfl
    · rw [if_pos h2]
  rw [h]
  exact ⟨rfl, rfl, afterBuildStep_splint cfg E s⟩

/-- C2 (disabled model).  With `HOD.pdfs == 0` every query returns `0` and hands back
the state it was given: the flag, the arrays, `RESET_FLAG_1H`, the call counter of the
tabulator and the counters of the library routines are all unchanged. -/
theorem disabled_model (cfg : Config α) (E : Env α) (r : α) (s : State α)
    (hp : cfg.pdfs = 0) : one_halo_real_space cfg E r s = (0, s) :=
  disabled_model_aux cfg E r s hp

/-- C3 (idempotence of the cache).  Take two consecutive enabled calls, at `r` and then
at `r'`, with nothing changed in between.  When the first call starts from a cache
that is not built (as at program start) or is stale, the tabulator runs exactly once
in total.  The second call performs no build: the call counter of the tabulator, the
counter of `spline`, the table and the spline coefficients are as the first call left
them.  When `r' = r` both calls return the same value. -/
theorem cache_idempotent (cfg : Config α) (E : Env α) (r r' : α) (s : State α)
    (hp : cfg.pdfs ≠ 0) :
    (s.flag = 0 ∨ s.g.RESET_FLAG_1H ≠ 0 →
      (one_halo_real_space cfg E r' (one_halo_real_space cfg E r s).2).2.g.ncnt
        = s.g.ncnt + 1) ∧
    (one_halo_real_space cfg E r' (one_halo_real_space cfg E r s).2).2.g.ncnt
      = (one_halo_real_space cfg E r s).2.g.ncnt ∧
    (one_halo_real_space cfg E r' (one_halo_real_space cfg E r s).2).2.g.calls.spline
      = (one_halo_real_space cfg E r s).2.g.calls.spline ∧
    (one_halo_real_space cfg E r' (one_halo_real_space cfg E r s).2).2.x
      = (one_halo_real_space cfg E r s).2.x ∧
    (one_halo_real_space cfg E r' (one_halo_real_space cfg E r s).2).2.y
      = (one_halo_real_space cfg E r s).2.y ∧
    (one_halo_real_space cfg E r' (one_halo_real_space cfg E r s).2).2.y2
      = (one_halo_real_space cfg E r s).2.y2 ∧
    (r' = r → (one_halo_real_space cfg E r' (one_halo_real_space cfg E r s).2).1
      = (one_halo_real_space cfg E r s).1) := by
  obtain ⟨_, hx, hy, hy2, _, hn, _, _⟩ := one_halo_state cfg E r s hp
  obtain ⟨_, hx', hy', hy2', _, hn', hsp', _⟩ :=
    one_halo_state cfg E r' (one_halo_real_space cfg E r s).2 hp
  have hfix := afterBuildStep_after_call cfg E r s hp
  rw [hfix] at hx' hy' hy2' hn' hsp'
  refine ⟨?_, hn', hsp', hx', hy', hy2', ?_⟩
  · intro hs
    rw [hn', hn, afterBuildStep_of_stale cfg E s hs]
    exact (rebuild_globals cfg E 100 s).2.1
  · intro hrr
    rw [one_halo_value cfg E r' _ hp, one_halo_value cfg E r s hp, hfix, hx, hy, hy2, hrr]

/-- C4 (invalidation).  From a built cache (`flag` non-zero) with `RESET_FLAG_1H` set,
an enabled call runs the tabulator once and `spline` once, allocates nothing, clears
`RESET_FLAG_1H` and leaves `flag = 1`.  The rebuilt table has `n = 100` separations
`x[1..100]`, given by the grid formula of the configuration, hence equal to the
separations of any other table built with the same configuration. -/
theorem invalidation_rebuilds (cfg : Config α) (E : Env α) (r : α) (s : State α)
    (hp : cfg.pdfs ≠ 0) (hbuilt : s.flag ≠ 0) (hreset : s.g.RESET_FLAG_1H ≠ 0) :
    (one_halo_real_space cfg E r s).2.g.ncnt = s.g.ncnt + 1 ∧
    (one_halo_real_space cfg E r s).2.g.calls.spline = s.g.calls.spline + 1 ∧
    (one_halo_real_space cfg E r s).2.g.calls.dvector = s.g.calls.dvector ∧
    (one_halo_real_space cfg E r s).2.g.RESET_FLAG_1H = 0 ∧
    (one_halo_real_space cfg E r s).2.flag = 1 ∧
    (one_halo_real_space cfg E r s).2.y2
      = E.spline (one_halo_real_space cfg E r s).2.x (one_halo_real_space cfg E r s).2.y
          100 2.0E+30 2.0E+30 ∧
    (∀ i, 1 ≤ i → i ≤ 100 →
      (one_halo_real_space cfg E r s).2.x i = gridPoint E (dr cfg E 100) (rlo E) i) ∧
    (∀ (t : State α) (i : Nat), 1 ≤ i → i ≤ 100 →
      (one_halo_real_space cfg E r s).2.x i = (rebuild cfg E 100 t).x i) := by
  obtain ⟨hf, hx, hy, hy2, hr, hn, hsp, hdv⟩ := one_halo_state cfg E r s hp
  have hre := afterBuildStep_of_stale cfg E s (Or.inr hreset)
  rw [hre] at hf hx hy hy2 hr hn hsp hdv
  obtain ⟨g1, g2, _, g4, _, g6⟩ := rebuild_globals cfg E 100 s
  refine ⟨by rw [hn, g2], by rw [hsp, g4], ?_, by rw [hr, g1], by rw [hf, rebuild_flag],
    ?_, ?_, ?_⟩
  · rw [hdv, g6, if_neg hbuilt, Nat.add_zero]
  · rw [hx, hy, hy2]
    exact rebuild_y2 cfg E 100 s
  · intro i h1 h2
    rw [hx, rebuild_x cfg E 100 s i h1 h2]
  · intro t i h1 h2
    rw [hx, rebuild_x cfg E 100 s i h1 h2, rebuild_x cfg E 100 t i h1 h2]

/-- C5 (early termination).  In the table produced by `calc_real_space_one_halo`, if
`xi[i] < 1.0E-10` for an index `i` in `[1,n]`, then `xi[j] = 0` for every later index
`j ≤ n`.  Every one of the `n` entries is defined whether or not the loop stopped early:
`r[k]` is the grid separation and `xi[k]` is the zero of the first loop or the sample
computed for `k`. -/
theorem early_termination (cfg : Config α) (E : Env α) (r xi : Nat → α) (n : Nat)
    (g : Globals α) (i j : Nat) (hi : 1 ≤ i) (hij : i < j) (hj : j ≤ n)
    (hlt : (calc_real_space_one_halo cfg E r xi n g).xi i < 1.0E-10) :
    (calc_real_space_one_halo cfg E r xi n g).xi j = 0 ∧
    (∀ k, 1 ≤ k → k ≤ n →
      (calc_real_space_one_halo cfg E r xi n g).r k = gridPoint E (dr cfg E n) (rlo E) k ∧
      ((calc_real_space_one_halo cfg E r xi n g).xi k = 0 ∨
        (calc_real_space_one_halo cfg E r xi n g).xi k
          = sampleValue cfg E (dr cfg E n) (rlo E) cfg.GALAXY_DENSITY k)) := by
  refine ⟨calc_early cfg E r xi n g i j hi hij hj hlt, fun k h1 h2 => ⟨?_, ?_⟩⟩
  · rw [calc_r, if_pos ⟨h1, by omega⟩]
  · exact calc_xi_cases cfg E r xi n g k h1 h2

end Claims

section RealClaims

/-- C6 (grid invariant), amended.  Let `n ≥ 2` and let `HOD.M_max` and the constants
be positive, so that the target separation `r_max` is positive and `log(r_max)` and
`D` are finite.  Every separation of a built table satisfies
`r_i = exp((i-1)*D + log(r_min))` with `r_min = 0.01` and
`D = (log(r_max) - log(r_min))/(n-1)`, whether or not the build stopped early and
whatever the size of `r_max`.  The separations are strictly increasing when
`r_max > 0.01`. -/
theorem grid_invariant (cfg : Config ℝ) (E : Env ℝ) (r xi : Nat → ℝ) (n : Nat)
    (g : Globals ℝ) (hexp : E.exp = Real.exp) (hlog : E.log = Real.log)
    (hpow : E.pow = fun a b => a ^ b) (hn : 2 ≤ n)
    (hM : 0 < cfg.M_max) (hPI : 0 < cfg.PI) (hD : 0 < cfg.DELTA_HALO)
    (hR : 0 < cfg.RHO_CRIT) (hO : 0 < cfg.OMEGA_M) :
    0 < rmax cfg E ∧
    (∀ i, 1 ≤ i → i ≤ n →
      (calc_real_space_one_halo cfg E r xi n g).r i
        = Real.exp (((i : ℝ) - 1) *
            ((Real.log (rmax cfg E) - Real.log 0.01) / ((n : ℝ) - 1)) + Real.log 0.01)) ∧
    (0.01 < rmax cfg E → ∀ i j, 1 ≤ i → i < j → j ≤ n →
      (calc_real_space_one_halo cfg E r xi n g).r i
        < (calc_real_space_one_halo cfg E r xi n g).r j) := by
  refine ⟨rmax_pos cfg E hpow hM hPI hD hR hO, ?_, ?_⟩
  · intro i h1 h2
    rw [calc_r, if_pos ⟨h1, by omega⟩]
    unfold gridPoint dr rlo
    rw [rhi_eq_log_rmax, hexp, hlog]
    push_cast
    rfl
  · intro hr i j h1 h2 h3
    rw [calc_r, if_pos ⟨h1, by omega⟩, calc_r, if_pos ⟨by omega, by omega⟩]
    exact gridPoint_lt E hexp _ _ (dr_pos cfg E hlog n hn hr) i j h2

/-- C6, a configuration where the claim fails: with `HOD.M_low = 1.0E+5` and
`HOD.M_max = 1.0E+6` the target separation is below `0.01`, and the second separation
of the built table is below the first. -/
theorem grid_decreasing_for_small_M_max :
    (calc_real_space_one_halo (testConfig 1 1.0E+5 1.0E+6 Real.pi)
        (testEnv Real.exp Real.log (fun a b => a ^ b) 0)
        (fun _ => 0) (fun _ => 0) 100 (startGlobals 0)).r 2
      < (calc_real_space_one_halo (testConfig 1 1.0E+5 1.0E+6 Real.pi)
          (testEnv Real.exp Real.log (fun a b => a ^ b) 0)
          (fun _ => 0) (fun _ => 0) 100 (startGlobals 0)).r 1 := by
  rw [calc_r, if_pos ⟨by norm_num, by norm_num⟩, calc_r, if_pos ⟨by norm_num, by norm_num⟩]
  apply gridPoint_two_lt_one _ rfl
  apply dr_neg _ _ rfl 100 (by norm_num) _ (rmax_small 0)
  exact rmax_pos _ _ rfl (by norm_num [testConfig]) Real.pi_pos (by norm_num [testConfig])
    (by norm_num [testConfig]) (by norm_num [testConfig])

/-- C10 (non-empty integration interval).  For positive constants,
`0 < HOD.M_low < HOD.M_max` and a target separation `r_max ≥ 0.01`, at every grid
index `i` in `[1,n]` the lower mass bound `mlo` is strictly below `HOD.M_max` and
`log(mlo) < log(HOD.M_max)`; these are the bounds of the quadrature call that
computes the sample at `i`. -/
theorem integration_interval_nonempty (cfg : Config ℝ) (E : Env ℝ) (n i : Nat)
    (hexp : E.exp = Real.exp) (hlog : E.log = Real.log) (hpow : E.pow = fun a b => a ^ b)
    (hPI : 0 < cfg.PI) (hD : 0 < cfg.DELTA_HALO) (hR : 0 < cfg.RHO_CRIT)
    (hO : 0 < cfg.OMEGA_M) (hlow : 0 < cfg.M_low) (hlt : cfg.M_low < cfg.M_max)
    (hr : 0.01 ≤ rmax cfg E) (hn : 2 ≤ n) (_ : 1 ≤ i) (hin : i ≤ n) :
    mloAt cfg E (dr cfg E n) (rlo E) i < cfg.M_max ∧
    E.log (mloAt cfg E (dr cfg E n) (rlo E) i) < E.log cfg.M_max ∧
    ∀ T : Table ℝ, (pointStep cfg E (dr cfg E n) (rlo E) i T).1
      = 1.0 / (2 * cfg.PI * gridPoint E (dr cfg E n) (rlo E) i *
            gridPoint E (dr cfg E n) (rlo E) i * cfg.GALAXY_DENSITY * T.g.GALAXY_DENSITY2) *
          E.qromo (func1 cfg E (gridPoint E (dr cfg E n) (rlo E) i))
            (E.log (mloAt cfg E (dr cfg E n) (rlo E) i)) (E.log cfg.M_max) := by
  obtain ⟨h1, h2⟩ := mloAt_bounds cfg E n i hexp hlog hpow hPI hD hR hO hlow hlt hr hn hin
  refine ⟨h1, ?_, fun T => ?_⟩
  · rw [hlog]
    exact Real.log_lt_log h2 h1
  · rw [pointStep_fst]
    rfl

/-- C7 (degenerate integral), amended.  Let `n ≥ 2` and let `HOD.M_max`, the constants
and `GALAXY_DENSITY` be positive, so that `r_max` is positive and the denominator of
the prefactor `fac` is positive (`dr` and `fac` are finite).  If the quadrature returns
`0` on every call, then after `calc_real_space_one_halo` every tabulated value
`xi[1..n]` is `0`, the quadrature has been called once, and `ERROR_FLAG` has been
assigned `0`, whatever it held before. -/
theorem degenerate_integral (cfg : Config ℝ) (E : Env ℝ) (r xi : Nat → ℝ) (n : Nat)
    (g : Globals ℝ) (hexp : E.exp = Real.exp) (hpow : E.pow = fun a b => a ^ b)
    (hn : 2 ≤ n) (hM : 0 < cfg.M_max) (hPI : 0 < cfg.PI) (hD : 0 < cfg.DELTA_HALO)
    (hR : 0 < cfg.RHO_CRIT) (hO : 0 < cfg.OMEGA_M) (hGD : 0 < cfg.GALAXY_DENSITY)
    (hq : ∀ f a b, E.qromo f a b = 0) :
    (∀ j, 1 ≤ j → j ≤ n → (calc_real_space_one_halo cfg E r xi n g).xi j = 0) ∧
    (calc_real_space_one_halo cfg E r xi n g).g.ERROR_FLAG = 0 ∧
    (calc_real_space_one_halo cfg E r xi n g).g.calls.qromo = g.calls.qromo + 1 ∧
    0 < rmax cfg E ∧
    0 < 2 * cfg.PI * (calc_real_space_one_halo cfg E r xi n g).r 1 *
          (calc_real_space_one_halo cfg E r xi n g).r 1 * cfg.GALAXY_DENSITY *
          (calc_real_space_one_halo cfg E r xi n g).g.GALAXY_DENSITY2 := by
  obtain ⟨h1, h2, h3⟩ := calc_degenerate cfg E r xi n g hq (by omega)
  refine ⟨h1, h2, h3, rmax_pos cfg E hpow hM hPI hD hR hO, ?_⟩
  have hr1 : 0 < (calc_real_space_one_halo cfg E r xi n g).r 1 := by
    rw [calc_r, if_pos ⟨by omega, by omega⟩]
    unfold gridPoint
    rw [hexp]
    exact Real.exp_pos _
  rw [(calc_frame cfg E r xi n g).2.1]
  show 0 < 2 * cfg.PI * _ * _ * cfg.GALAXY_DENSITY * cfg.GALAXY_DENSITY
  positivity

/-- C7, a run where the claim fails: `ERROR_FLAG` is `1` before the build, the
quadrature returns `0` on every call, and `ERROR_FLAG` is `0` after the build. -/
theorem error_flag_cleared_by_degenerate_build :
    (startGlobals 1 : Globals ℝ).ERROR_FLAG = 1 ∧
    (calc_real_space_one_halo (testConfig 1 1.0E+11 1.0E+15 Real.pi)
        { testEnv Real.exp Real.log (fun a b => a ^ b) 0 with qromo := fun _ _ _ => 0 }
        (fun _ => 0) (fun _ => 0) 100 (startGlobals 1)).g.ERROR_FLAG = 0 :=
  ⟨rfl, (calc_degenerate _ _ _ _ 100 _ (fun _ _ _ => rfl) (by norm_num)).2.1⟩

/-- C9 (non-negativity), amended.  Let the constants and `GALAXY_DENSITY` be positive,
`0 < HOD.M_low < HOD.M_max`, the target separation `r_max ≥ 0.01`, the mass function,
the occupations, the pair moment and both profile functions non-negative, and the
quadrature of a non-negative integrand over an interval `a ≤ b` non-negative.  Starting
from a cache that is not built, is stale, or holds non-negative samples: after an
enabled call every tabulated sample `y[1..100]` is non-negative; the returned value is
`0` when the model is disabled or `r` lies outside `[x[1], x[100]]`; and for `r` inside
the table the returned value is the value of the spline evaluator, for which no sign
is asserted. -/
theorem samples_nonneg_zero_outside (cfg : Config ℝ) (E : Env ℝ) (r : ℝ) (s : State ℝ)
    (hexp : E.exp = Real.exp) (hlog : E.log = Real.log) (hpow : E.pow = fun a b => a ^ b)
    (hPI : 0 < cfg.PI) (hD : 0 < cfg.DELTA_HALO) (hR : 0 < cfg.RHO_CRIT)
    (hO : 0 < cfg.OMEGA_M) (hlow : 0 < cfg.M_low) (hlt : cfg.M_low < cfg.M_max)
    (hGD : 0 < cfg.GALAXY_DENSITY) (hr : 0.01 ≤ rmax cfg E)
    (hdn : ∀ m, 0 ≤ E.dndM_interp m) (hsat : ∀ m, 0 ≤ E.N_sat m)
    (hcen : ∀ m, 0 ≤ E.N_cen m) (hmom : ∀ m, 0 ≤ E.moment_ss m)
    (hss : ∀ a c, 0 ≤ E.dFdx_ss a c) (hcs : ∀ a c, 0 ≤ E.dFdx_cs a c)
    (hq : ∀ f a b, a ≤ b → (∀ t, 0 ≤ f t) → 0 ≤ E.qromo f a b)
    (hs : s.flag = 0 ∨ s.g.RESET_FLAG_1H ≠ 0 ∨ ∀ i, 1 ≤ i → i ≤ 100 → 0 ≤ s.y i) :
    (cfg.pdfs ≠ 0 → ∀ i, 1 ≤ i → i ≤ 100 → 0 ≤ (one_halo_real_space cfg E r s).2.y i) ∧
    (cfg.pdfs = 0 ∨ r < (afterBuildStep cfg E s).x 1 ∨ r > (afterBuildStep cfg E s).x 100 →
      (one_halo_real_space cfg E r s).1 = 0) ∧
    (cfg.pdfs ≠ 0 → ¬ r < (afterBuildStep cfg E s).x 1 →
      ¬ r > (afterBuildStep cfg E s).x 100 →
      (one_halo_real_space cfg E r s).1
        = E.splint (afterBuildStep cfg E s).x (afterBuildStep cfg E s).y
            (afterBuildStep cfg E s).y2 100 r) := by
  have hf := func1_nonneg cfg E hPI hD hR hO (fun t => by rw [hexp]; exact Real.exp_pos t)
    (fun a b ha => by rw [hpow]; exact Real.rpow_nonneg ha b) hdn hsat hcen hmom hss hcs
  have hsample : ∀ i, i ≤ 100 →
      0 ≤ sampleValue cfg E (dr cfg E 100) (rlo E) cfg.GALAXY_DENSITY i := by
    intro i hi
    obtain ⟨hm1, hm2⟩ := mloAt_bounds cfg E 100 i hexp hlog hpow hPI hD hR hO hlow hlt hr
      (by norm_num) hi
    have hg : 0 < gridPoint E (dr cfg E 100) (rlo E) i := by
      unfold gridPoint
      rw [hexp]
      exact Real.exp_pos _
    have hfac : 0 < 1.0 / (2 * cfg.PI * gridPoint E (dr cfg E 100) (rlo E) i *
        gridPoint E (dr cfg E 100) (rlo E) i * cfg.GALAXY_DENSITY * cfg.GALAXY_DENSITY) := by
      positivity
    have hab : E.log (mloAt cfg E (dr cfg E 100) (rlo E) i) ≤ E.log cfg.M_max := by
      rw [hlog]
      exact Real.log_le_log hm2 hm1.le
    unfold sampleValue
    exact mul_nonneg hfac.le (hq _ _ _ hab (hf _))
  have hy : ∀ i, 1 ≤ i → i ≤ 100 → 0 ≤ (afterBuildStep cfg E s).y i := by
    intro i h1 h2
    by_cases hst : s.flag = 0 ∨ s.g.RESET_FLAG_1H ≠ 0
    · rw [afterBuildStep_of_stale cfg E s hst]
      rcases rebuild_y_cases cfg E 100 s i h1 h2 with h | h
      · rw [h]
      · rw [h]
        exact hsample i h2
    · have hfl : s.flag ≠ 0 := fun h => hst (Or.inl h)
      have hre : s.g.RESET_FLAG_1H = 0 := by
        by_contra h
        exact hst (Or.inr h)
      rw [afterBuildStep_of_built cfg E s hfl hre]
      rcases hs with h | h | h
      · exact absurd h hfl
      · exact absurd hre h
      · exact h i h1 h2
  refine ⟨?_, ?_, ?_⟩
  · intro hp i h1 h2
    rw [(one_halo_state cfg E r s hp).2.2.1]
    exact hy i h1 h2
  · intro h
    by_cases hp : cfg.pdfs = 0
    · rw [disabled_model_aux cfg E r s hp]
    · rw [one_halo_value cfg E r s hp]
      rcases h with h | h | h
      · exact absurd h hp
      · split_ifs <;> rfl
      · rw [if_pos h]
  · intro hp h1 h2
    rw [one_halo_value cfg E r s hp, if_neg h2, if_neg h1]

/-- C9, a run where the claim fails.  The constants are those of `testConfig` with
`HOD.M_low = 1.0E+11` and `HOD.M_max = 1.0E+15`; every halo-model function is
non-negative (the pair profiles are `1` up to a cut-off and `0` beyond it, the
concentration is positive, the others are `1`); the quadrature is the one-panel midpoint
rule `(b - a) * f((a+b)/2)`, non-negative for a non-negative integrand on `a ≤ b`; the
spline routines are the cubic-spline fit and evaluator.  The table built is a positive first sample followed by zeros, and the
query `r = 0.011`, between `x[2]` and `x[3]`, returns a negative value. -/
theorem spline_undershoot_inside_table :
    (∀ (f : ℝ → ℝ) (a b : ℝ), a ≤ b → (∀ t, 0 ≤ f t) →
      0 ≤ (spikeEnv Real.exp Real.log (fun a b => a ^ b)
        (testConfig 1 1.0E+11 1.0E+15 Real.pi)).qromo f a b) ∧
    (∀ m : ℝ, 0 ≤ (spikeEnv Real.exp Real.log (fun a b => a ^ b)
        (testConfig 1 1.0E+11 1.0E+15 Real.pi)).dndM_interp m) ∧
    (∀ m : ℝ, 0 ≤ (spikeEnv Real.exp Real.log (fun a b => a ^ b)
        (testConfig 1 1.0E+11 1.0E+15 Real.pi)).N_sat m) ∧
    (∀ m : ℝ, 0 ≤ (spikeEnv Real.exp Real.log (fun a b => a ^ b)
        (testConfig 1 1.0E+11 1.0E+15 Real.pi)).N_cen m) ∧
    (∀ m : ℝ, 0 ≤ (spikeEnv Real.exp Real.log (fun a b => a ^ b)
        (testConfig 1 1.0E+11 1.0E+15 Real.pi)).moment_ss m) ∧
    (∀ a c : ℝ, 0 ≤ (spikeEnv Real.exp Real.log (fun a b => a ^ b)
        (testConfig 1 1.0E+11 1.0E+15 Real.pi)).dFdx_ss a c) ∧
    (∀ a c : ℝ, 0 ≤ (spikeEnv Real.exp Real.log (fun a b => a ^ b)
        (testConfig 1 1.0E+11 1.0E+15 Real.pi)).dFdx_cs a c) ∧
    (∀ i, 1 ≤ i → i ≤ 100 →
      0 ≤ (one_halo_real_space (testConfig 1 1.0E+11 1.0E+15 Real.pi)
        (spikeEnv Real.exp Real.log (fun a b => a ^ b)
          (testConfig 1 1.0E+11 1.0E+15 Real.pi)) 0.011 (startState 0)).2.y i) ∧
    (one_halo_real_space (testConfig 1 1.0E+11 1.0E+15 Real.pi)
        (spikeEnv Real.exp Real.log (fun a b => a ^ b)
          (testConfig 1 1.0E+11 1.0E+15 Real.pi)) 0.011 (startState 0)).1 < 0 := by
  obtain ⟨hconv, hspike, hx1, hx2, hxk⟩ := spike_run_table
    (spikeEnv Real.exp Real.log (fun a b => a ^ b) (testConfig 1 1.0E+11 1.0E+15 Real.pi))
    rfl (startState 0)
  have hstep : ∀ c : ℝ, 0 ≤ (if c ≤ 0.01005 then (1 : ℝ) else 0) := by
    intro c
    split_ifs <;> norm_num
  refine ⟨fun f a b hab hf => mul_nonneg (by linarith) (hf _), fun _ => zero_le_one,
    fun _ => zero_le_one, fun _ => zero_le_one, fun _ => zero_le_one,
    fun a c => hstep (a * c), fun a c => hstep (a * c), ?_, ?_⟩
  · intro i h1 h2
    rw [(one_halo_state _ _ _ _ (by decide)).2.2.1,
      afterBuildStep_of_stale _ _ _ (Or.inl rfl)]
    by_cases hi : i = 1
    · subst hi
      exact hspike.1.le
    · rw [hspike.2 i (by omega) h2]
  · rw [one_halo_value _ _ _ _ (by decide), afterBuildStep_of_stale _ _ _ (Or.inl rfl),
      if_neg (not_lt.mpr (hxk 100 (by norm_num) (le_refl 100)).le),
      if_neg (by rw [hx1]; norm_num), rebuild_y2]
    exact splint_spike_neg _ _ 100 hconv hspike (by norm_num) 0.011
      (bisect_two_three _ 0.011 (not_lt.mpr hx2.le) (hxk 3 (le_refl 3) (by norm_num))
        (hxk 4 (by norm_num) (by norm_num)) (hxk 7 (by norm_num) (by norm_num))
        (hxk 13 (by norm_num) (by norm_num)) (hxk 25 (by norm_num) (by norm_num))
        (hxk 50 (by norm_num) (by norm_num)))
      hx2 (hxk 3 (le_refl 3) (by norm_num))

/-! ## Concrete runs -/

/-- C1 at program start, real library functions, query `r = 0.001 < 0.01 = x[1]`. -/
theorem range_guard_witness :
    (one_halo_real_space (testConfig 1 1.0E+11 1.0E+15 Real.pi)
        (testEnv Real.exp Real.log (fun a b => a ^ b) 0) 0.001 (startState 0)).1 = 0 :=
  (range_guard (testConfig 1 1.0E+11 1.0E+15 Real.pi)
    (testEnv Real.exp Real.log (fun a b => a ^ b) 0) 0.001 (startState 0) (by decide)
    (Or.inl (by
      rw [afterBuildStep_of_stale _ _ _ (Or.inl rfl),
        rebuild_x _ _ _ _ 1 (le_refl 1) (by norm_num), gridPoint_first _ rfl rfl]
      norm_num))).1

/-- C2 at program start with `HOD.pdfs = 0`. -/
theorem disabled_model_witness :
    one_halo_real_space (testConfig 0 1.0E+11 1.0E+15 Real.pi)
        (testEnv Real.exp Real.log (fun a b => a ^ b) 0) 1 (startState 0)
      = (0, startState 0) :=
  disabled_model (testConfig 0 1.0E+11 1.0E+15 Real.pi)
    (testEnv Real.exp Real.log (fun a b => a ^ b) 0) 1 (startState 0) rfl

/-- C3 at program start: two calls at `r = 1` run the tabulator once. -/
theorem cache_idempotent_witness :
    (one_halo_real_space (testConfig 1 1.0E+11 1.0E+15 Real.pi)
        (testEnv Real.exp Real.log (fun a b => a ^ b) 0) 1
        (one_halo_real_space (testConfig 1 1.0E+11 1.0E+15 Real.pi)
          (testEnv Real.exp Real.log (fun a b => a ^ b) 0) 1 (startState 0)).2).2.g.ncnt
      = 1 :=
  (cache_idempotent (testConfig 1 1.0E+11 1.0E+15 Real.pi)
    (testEnv Real.exp Real.log (fun a b => a ^ b) 0) 1 1 (startState 0) (by decide)).1
    (Or.inl rfl)

/-- C4 from a built cache with `RESET_FLAG_1H = 1`. -/
theorem invalidation_rebuilds_witness :
    (one_halo_real_space (testConfig 1 1.0E+11 1.0E+15 Real.pi)
        (testEnv Real.exp Real.log (fun a b => a ^ b) 0) 1
        { flag := 1, x := fun _ => 0, y := fun _ => 0, y2 := fun _ => 0,
          g := { startGlobals 0 with RESET_FLAG_1H := 1 } }).2.g.RESET_FLAG_1H = 0 :=
  (invalidation_rebuilds (testConfig 1 1.0E+11 1.0E+15 Real.pi)
    (testEnv Real.exp Real.log (fun a b => a ^ b) 0) 1
    { flag := 1, x := fun _ => 0, y := fun _ => 0, y2 := fun _ => 0,
      g := { startGlobals 0 with RESET_FLAG_1H := 1 } } (by decide) (by decide)
    (by decide)).2.2.2.1

/-- C5 with a quadrature returning `0`: `xi[1] = 0 < 1.0E-10`, hence `xi[2] = 0`. -/
theorem early_termination_witness :
    (calc_real_space_one_halo (testConfig 1 1.0E+11 1.0E+15 Real.pi)
        { testEnv Real.exp Real.log (fun a b => a ^ b) 0 with qromo := fun _ _ _ => 0 }
        (fun _ => 1) (fun _ => 1) 100 (startGlobals 0)).xi 2 = 0 :=
  (early_termination (testConfig 1 1.0E+11 1.0E+15 Real.pi)
    { testEnv Real.exp Real.log (fun a b => a ^ b) 0 with qromo := fun _ _ _ => 0 }
    (fun _ => 1) (fun _ => 1) 100 (startGlobals 0) 1 2 (le_refl 1) (by norm_num)
    (by norm_num)
    (by
      rw [(calc_degenerate _ _ _ _ 100 _ (fun _ _ _ => rfl) (by norm_num)).1 1 (le_refl 1)
        (by norm_num)]
      norm_num)).1

/-- C6 with `HOD.M_max = 1.0E+15`, where the target separation exceeds `0.01`. -/
theorem grid_invariant_witness :
    (calc_real_space_one_halo (testConfig 1 1.0E+11 1.0E+15 Real.pi)
        (testEnv Real.exp Real.log (fun a b => a ^ b) 0)
        (fun _ => 0) (fun _ => 0) 100 (startGlobals 0)).r 1
      < (calc_real_space_one_halo (testConfig 1 1.0E+11 1.0E+15 Real.pi)
          (testEnv Real.exp Real.log (fun a b => a ^ b) 0)
          (fun _ => 0) (fun _ => 0) 100 (startGlobals 0)).r 2 :=
  (grid_invariant (testConfig 1 1.0E+11 1.0E+15 Real.pi)
    (testEnv Real.exp Real.log (fun a b => a ^ b) 0) (fun _ => 0) (fun _ => 0) 100
    (startGlobals 0) rfl rfl rfl (by norm_num) (by norm_num [testConfig]) Real.pi_pos
    (by norm_num [testConfig]) (by norm_num [testConfig])
    (by norm_num [testConfig])).2.2
    (lt_of_lt_of_le (by norm_num) (rmax_large 0)) 1 2 (le_refl 1) (by norm_num)
    (by norm_num)

/-- C7 with a quadrature returning `0` and `ERROR_FLAG = 1` before the build. -/
theorem degenerate_integral_witness :
    (calc_real_space_one_halo (testConfig 1 1.0E+11 1.0E+15 Real.pi)
        { testEnv Real.exp Real.log (fun a b => a ^ b) 0 with qromo := fun _ _ _ => 0 }
        (fun _ => 1) (fun _ => 1) 100 (startGlobals 1)).g.ERROR_FLAG = 0 :=
  (degenerate_integral (testConfig 1 1.0E+11 1.0E+15 Real.pi)
    { testEnv Real.exp Real.log (fun a b => a ^ b) 0 with qromo := fun _ _ _ => 0 }
    (fun _ => 1) (fun _ => 1) 100 (startGlobals 1) rfl rfl (by norm_num)
    (by norm_num [testConfig]) Real.pi_pos (by norm_num [testConfig])
    (by norm_num [testConfig]) (by norm_num [testConfig]) (by norm_num [testConfig])
    (fun _ _ _ => rfl)).2.1

/-- C9 at program start with `HOD.M_max = 1.0E+15`: the first sample is non-negative. -/
theorem samples_nonneg_zero_outside_witness :
    0 ≤ (one_halo_real_space (testConfig 1 1.0E+11 1.0E+15 Real.pi)
        (testEnv Real.exp Real.log (fun a b => a ^ b) 0) 1 (startState 0)).2.y 1 :=
  (samples_nonneg_zero_outside (testConfig 1 1.0E+11 1.0E+15 Real.pi)
    (testEnv Real.exp Real.log (fun a b => a ^ b) 0) 1 (startState 0) rfl rfl rfl
    Real.pi_pos (by norm_num [testConfig]) (by norm_num [testConfig])
    (by norm_num [testConfig]) (by norm_num [testConfig]) (by norm_num [testConfig])
    (by norm_num [testConfig]) (le_trans (by norm_num) (rmax_large 0))
    (fun _ => zero_le_one) (fun _ => zero_le_one) (fun _ => zero_le_one)
    (fun _ => zero_le_one) (fun _ _ => zero_le_one) (fun _ _ => zero_le_one)
    (fun f a b _ hf => mul_nonneg (abs_nonneg _) (hf a))
    (Or.inl rfl)).1 (by decide) 1 (le_refl 1) (by norm_num)

/-- C10 at the last grid index, `HOD.M_low = 1.0E+11`, `HOD.M_max = 1.0E+15`. -/
theorem integration_interval_nonempty_witness :
    mloAt (testConfig 1 1.0E+11 1.0E+15 Real.pi) (testEnv Real.exp Real.log (fun a b => a ^ b) 0)
        (dr (testConfig 1 1.0E+11 1.0E+15 Real.pi)
          (testEnv Real.exp Real.log (fun a b => a ^ b) 0) 100)
        (rlo (testEnv Real.exp Real.log (fun a b => a ^ b) 0)) 100
      < (testConfig 1 1.0E+11 1.0E+15 Real.pi).M_max :=
  (integration_interval_nonempty (testConfig 1 1.0E+11 1.0E+15 Real.pi)
    (testEnv Real.exp Real.log (fun a b => a ^ b) 0) 100 100 rfl rfl rfl Real.pi_pos
    (by norm_num [testConfig]) (by norm_num [testConfig]) (by norm_num [testConfig])
    (by norm_num [testConfig]) (by norm_num [testConfig])
    (le_trans (by norm_num) (rmax_large 0)) (by norm_num) (by norm_num) (le_refl 100)).1

end RealClaims

end OneHalo
